import Mathlib

/-!
# Verification of the cloudflare-ddns reconciliation engine

Shallow embedding of the `cloudflare-ddns` TypeScript repository:
the record reconciler (`apps/api/src/update/reconcile.ts`), target
discovery (`apps/api/src/update/targets.ts`), the IP resolver
(`apps/api/src/update/ip-resolver.ts`), the scheduler
(`apps/api/src/scheduler.ts`) and the Cloudflare REST client
(`apps/api/src/cloudflare/client.ts`).

External effects (Cloudflare API calls, HTTP fetches, `Date.now`,
`node:net`'s `isIP`) are modelled by explicit state threading and
by parameters carrying the responses the environment would produce.
Provider-assigned record identifiers are opaque strings in the
source; they are modelled as naturals handed out by a counter in
the provider state.
-/

namespace CloudflareDdns

/-- Mirrors `CloudflareDnsRecord` from `cloudflare/client.ts`.  The
record `type` is a string union in the source and is kept as a
string here (only `"A"`, `"AAAA"`, `"CNAME"` are inspected). -/
structure CloudflareDnsRecord where
  id : Nat
  type : String
  name : String
  content : String
  proxied : Bool
  ttl : Nat
deriving DecidableEq, Repr

/-- Mirrors `DnsRecordInput` from `cloudflare/client.ts`. -/
structure DnsRecordInput where
  type : String
  name : String
  content : String
  proxied : Bool
  ttl : Nat
deriving DecidableEq, Repr

/-- The DNS record store of one Cloudflare zone, as seen through the
provider API.  `nextId` models the provider handing out fresh opaque
record identifiers on creation. -/
structure ZoneState where
  nextId : Nat
  records : List CloudflareDnsRecord
deriving DecidableEq, Repr

/-- The record the provider stores/returns for a given input
(Cloudflare echoes the submitted fields back). -/
def mkRecord (id : Nat) (input : DnsRecordInput) : CloudflareDnsRecord :=
  { id := id, type := input.type, name := input.name, content := input.content,
    proxied := input.proxied, ttl := input.ttl }

/-- `client.listDnsRecords(zoneId, { name: hostname })`: the provider
returns the zone's records whose name equals the filter. -/
def listDnsRecordsByName (st : ZoneState) (hostname : String) : List CloudflareDnsRecord :=
  st.records.filter (fun r => r.name == hostname)

/-- `client.createDnsRecord(zoneId, input)`: the provider stores a new
record under a fresh identifier and returns it. -/
def createDnsRecord (st : ZoneState) (input : DnsRecordInput) :
    CloudflareDnsRecord × ZoneState :=
  let created := mkRecord st.nextId input
  (created, { nextId := st.nextId + 1, records := st.records ++ [created] })

/-- `client.updateDnsRecord(zoneId, recordId, input)` (HTTP PUT): the
record with the given identifier is replaced by the input and the
stored record is returned. -/
def updateDnsRecord (st : ZoneState) (recordId : Nat) (input : DnsRecordInput) :
    CloudflareDnsRecord × ZoneState :=
  (mkRecord recordId input,
   { st with
      records := st.records.map (fun r => if r.id == recordId then mkRecord recordId input else r) })

/-- `client.deleteDnsRecord(zoneId, recordId)`. -/
def deleteDnsRecord (st : ZoneState) (recordId : Nat) : ZoneState :=
  { st with records := st.records.filter (fun r => r.id != recordId) }

/-- Mirrors `RecordChangeKind` from `update/reconcile.ts`. -/
inductive RecordChangeKind where
  | create
  | update
  | delete
  | skip
deriving DecidableEq, Repr

/-- Mirrors `RecordChange` from `update/reconcile.ts`. -/
structure RecordChange where
  kind : RecordChangeKind
  recordType : String
  hostname : String
  zoneId : String
  zoneName : String
  reason : Option String := none
deriving DecidableEq, Repr

/-- Mirrors `PartitionedRecords` from `update/reconcile.ts`. -/
structure PartitionedRecords where
  aRecords : List CloudflareDnsRecord
  aaaaRecords : List CloudflareDnsRecord
  cnameRecords : List CloudflareDnsRecord
deriving DecidableEq, Repr

/-- `AUTO_TTL` from `update/reconcile.ts`. -/
def AUTO_TTL : Nat := 1

/-- `partitionRecords` from `update/reconcile.ts`: buckets A, AAAA and
CNAME records in order; all other types are dropped. -/
def partitionRecords : List CloudflareDnsRecord → PartitionedRecords
  | [] => ⟨[], [], []⟩
  | r :: rest =>
      let p := partitionRecords rest
      if r.type == "A" then { p with aRecords := r :: p.aRecords }
      else if r.type == "AAAA" then { p with aaaaRecords := r :: p.aaaaRecords }
      else if r.type == "CNAME" then { p with cnameRecords := r :: p.cnameRecords }
      else p

/-- `shouldUpdate` from `update/reconcile.ts`. -/
def shouldUpdate (existing : CloudflareDnsRecord) (desired : DnsRecordInput) : Bool :=
  if existing.content != desired.content then true
  else if existing.proxied != desired.proxied then true
  else if existing.ttl != desired.ttl then true
  else false

/-- `deleteRecords` from `update/reconcile.ts`: deletes each record via
the client and emits one `delete` change per record. -/
def deleteRecords (st : ZoneState) (zoneId zoneName hostname : String) :
    List CloudflareDnsRecord → List RecordChange × ZoneState
  | [] => ([], st)
  | r :: rest =>
      let st1 := deleteDnsRecord st r.id
      let (chs, st2) := deleteRecords st1 zoneId zoneName hostname rest
      ({ kind := .delete, recordType := r.type, hostname := hostname,
         zoneId := zoneId, zoneName := zoneName } :: chs, st2)

/-- `ensureRecord` from `update/reconcile.ts`. -/
def ensureRecord (st : ZoneState) (zoneId zoneName hostname : String)
    (desired : DnsRecordInput) (existingRecords : List CloudflareDnsRecord) :
    List RecordChange × ZoneState :=
  match existingRecords with
  | [] =>
      let (created, st1) := createDnsRecord st desired
      ([{ kind := .create, recordType := created.type, hostname := hostname,
          zoneId := zoneId, zoneName := zoneName }], st1)
  | primary :: duplicates =>
      let (headChanges, st1) :=
        if shouldUpdate primary desired then
          let (updated, st') := updateDnsRecord st primary.id desired
          ([{ kind := .update, recordType := updated.type, hostname := hostname,
              zoneId := zoneId, zoneName := zoneName }], st')
        else
          ([{ kind := .skip, recordType := primary.type, hostname := hostname,
              zoneId := zoneId, zoneName := zoneName, reason := some "unchanged" }], st)
      let (dupChanges, st2) := deleteRecords st1 zoneId zoneName hostname duplicates
      (headChanges ++ dupChanges, st2)

/-- The slice of `AppConfig` that `reconcileHostname` reads. -/
structure ReconcileConfig where
  includeIPv4 : Bool
  includeIPv6 : Bool
  proxied : Bool
deriving DecidableEq, Repr

/-- Mirrors `ResolvedIpAddresses` from `update/ip-resolver.ts`. -/
structure ResolvedIpAddresses where
  ipv4 : Option String := none
  ipv6 : Option String := none
deriving DecidableEq, Repr

/-- `reconcileHostname` from `update/reconcile.ts`.  A thrown
exception is modelled as `Except.error`. -/
def reconcileHostname (config : ReconcileConfig) (st : ZoneState)
    (zoneId zoneName hostname : String) (ips : ResolvedIpAddresses) :
    Except String (List RecordChange × ZoneState) := do
  let records := listDnsRecordsByName st hostname
  let parts := partitionRecords records
  let (cnameChanges, st1) :=
    if parts.cnameRecords.length > 0 then
      deleteRecords st zoneId zoneName hostname parts.cnameRecords
    else ([], st)
  let (aChanges, st2) ←
    if config.includeIPv4 then
      match ips.ipv4 with
      | none => Except.error "IPv4 address not resolved"
      | some ip =>
          let desired : DnsRecordInput :=
            { type := "A", name := hostname, content := ip,
              proxied := config.proxied, ttl := AUTO_TTL }
          Except.ok (ensureRecord st1 zoneId zoneName hostname desired parts.aRecords)
    else if parts.aRecords.length > 0 then
      Except.ok (deleteRecords st1 zoneId zoneName hostname parts.aRecords)
    else Except.ok ([], st1)
  let (aaaaChanges, st3) ←
    if config.includeIPv6 then
      match ips.ipv6 with
      | none => Except.error "IPv6 address not resolved"
      | some ip =>
          let desired : DnsRecordInput :=
            { type := "AAAA", name := hostname, content := ip,
              proxied := config.proxied, ttl := AUTO_TTL }
          Except.ok (ensureRecord st2 zoneId zoneName hostname desired parts.aaaaRecords)
    else if parts.aaaaRecords.length > 0 then
      Except.ok (deleteRecords st2 zoneId zoneName hostname parts.aaaaRecords)
    else Except.ok ([], st2)
  return (cnameChanges ++ aChanges ++ aaaaChanges, st3)

/-! ## Target discovery (`apps/api/src/update/targets.ts`) -/

/-- Mirrors `CloudflareZone` from `cloudflare/client.ts`. -/
structure CloudflareZone where
  id : String
  name : String
deriving DecidableEq, Repr

/-- Mirrors `ZoneHostTargets` from `update/targets.ts`. -/
structure ZoneHostTargets where
  zone : CloudflareZone
  hostnames : List String
deriving DecidableEq, Repr

/-- Models JavaScript `String.prototype.toLowerCase` on the host-name
character range (character-wise lowering). -/
def jsToLower (s : String) : String := String.mk (s.data.map Char.toLower)

/-- Models JavaScript `String.prototype.trim`: strips leading and
trailing whitespace. -/
def jsTrim (s : String) : String :=
  String.mk (((s.data.dropWhile Char.isWhitespace).reverse.dropWhile Char.isWhitespace).reverse)

/-- Models JavaScript `String.prototype.endsWith`. -/
def jsEndsWith (s suffix : String) : Bool := suffix.data.isSuffixOf s.data

/-- Code-unit-wise strict comparison of two strings, as used by the
default JavaScript `Array.prototype.sort` comparator. -/
def jsLtChars : List Char → List Char → Bool
  | [], [] => false
  | [], _ :: _ => true
  | _ :: _, [] => false
  | a :: as, b :: bs =>
      if a.toNat < b.toNat then true
      else if b.toNat < a.toNat then false
      else jsLtChars as bs

/-- `a` sorts no later than `b` under the default JavaScript sort. -/
def jsLeString (a b : String) : Bool := !jsLtChars b.data a.data

/-- Models JavaScript `Array.prototype.sort()` on a string array
(stable sort by the default lexicographic comparator). -/
def jsSortStrings (l : List String) : List String :=
  l.insertionSort (fun a b => jsLeString a b = true)

/-- `normalizeHostname` from `update/targets.ts`. -/
def normalizeHostname (value : String) : String := jsToLower (jsTrim value)

/-- A JavaScript `Map` preserving insertion order, as an association
list (`set` on an existing key replaces the value in place, a new key
is appended). -/
def mapSet {β : Type} (m : List (String × β)) (k : String) (v : β) : List (String × β) :=
  if m.any (fun e => e.1 == k) then m.map (fun e => if e.1 == k then (k, v) else e)
  else m ++ [(k, v)]

/-- JavaScript `Map.prototype.get`. -/
def mapGet? {β : Type} (m : List (String × β)) (k : String) : Option β :=
  (m.find? (fun e => e.1 == k)).map (·.2)

/-- A JavaScript `Map` built with `new Map(entries)`: repeated `set`,
so a duplicated key keeps its first position with the last value. -/
def mapOfEntries {β : Type} (entries : List (String × β)) : List (String × β) :=
  entries.foldl (fun m e => mapSet m e.1 e.2) []

/-- One per-zone bucket from `targets.ts`: canonical hostname mapped
to the first-seen original spelling, in insertion order. -/
abbrev HostnameBucket := List (String × String)

/-- The `buckets` map of `collectZoneTargets`: zone id to bucket. -/
abbrev TargetBuckets := List (String × HostnameBucket)

/-- `HOST_RECORD_TYPES` from `update/targets.ts`. -/
def HOST_RECORD_TYPES : List String := ["A", "AAAA", "CNAME"]

/-- `appendHostname` from `update/targets.ts`. -/
def appendHostname (buckets : TargetBuckets) (zoneId hostname : String) : TargetBuckets :=
  let canonical := normalizeHostname hostname
  let bucket := (mapGet? buckets zoneId).getD []
  let bucket :=
    if bucket.any (fun e => e.1 == canonical) then bucket
    else bucket ++ [(canonical, hostname)]
  mapSet buckets zoneId bucket

/-- The zone-qualification test from the loop body of
`findZoneForHostname` (`targets.ts:33`): the canonical hostname equals
the canonical zone name or ends with `"." + zoneName`. -/
def zoneMatches (hostname : String) (zone : CloudflareZone) : Bool :=
  let canonical := normalizeHostname hostname
  let zoneName := normalizeHostname zone.name
  canonical == zoneName || jsEndsWith canonical ("." ++ zoneName)

/-- `findZoneForHostname` from `update/targets.ts`. -/
def findZoneForHostname (hostname : String) (zones : List CloudflareZone) :
    Option CloudflareZone :=
  zones.foldl
    (fun m zone =>
      if zoneMatches hostname zone then
        match m with
        | none => some zone
        | some mz =>
            if (normalizeHostname zone.name).length > (normalizeHostname mz.name).length
            then some zone else m
      else m)
    none

/-- `isBlacklisted` from `update/targets.ts` (the blacklist set is
already normalized by the caller). -/
def isBlacklisted (hostname : String) (blacklist : List String) : Bool :=
  blacklist.contains (normalizeHostname hostname)

/-- `collectHostnamesFromZoneRecords` from `update/targets.ts`. -/
def collectHostnamesFromZoneRecords (records : List CloudflareDnsRecord)
    (blacklist : List String) : List String :=
  let bucket := records.foldl
    (fun (bucket : HostnameBucket) record =>
      if !(HOST_RECORD_TYPES.contains record.type) then bucket
      else if isBlacklisted record.name blacklist then bucket
      else
        let canonical := normalizeHostname record.name
        if bucket.any (fun e => e.1 == canonical) then bucket
        else bucket ++ [(canonical, record.name)])
    []
  bucket.map (·.2)

/-- The slice of `AppConfig` that `collectZoneTargets` reads. -/
structure TargetsConfig where
  hostnameTargets : List String
  zoneTargets : List String
  blacklist : List String
deriving DecidableEq, Repr

/-- The explicit-hostname loop of `collectZoneTargets`
(`targets.ts:84`–`93`). -/
def addHostnameTargets (zones : List CloudflareZone) (blacklist : List String)
    (buckets : TargetBuckets) : List String → Except String TargetBuckets
  | [] => Except.ok buckets
  | hostname :: rest =>
      if isBlacklisted hostname blacklist then
        addHostnameTargets zones blacklist buckets rest
      else
        match findZoneForHostname hostname zones with
        | none => Except.error ("No Cloudflare zone found for hostname " ++ hostname)
        | some zone =>
            addHostnameTargets zones blacklist (appendHostname buckets zone.id hostname) rest

/-- The whole-zone loop of `collectZoneTargets` (`targets.ts:95`–`111`).
`recordsOf` carries the provider's `listDnsRecords` response per zone. -/
def addZoneTargets (zonesByName : List (String × CloudflareZone)) (blacklist : List String)
    (recordsOf : String → List CloudflareDnsRecord) (buckets : TargetBuckets) :
    List String → Except String TargetBuckets
  | [] => Except.ok buckets
  | zoneName :: rest =>
      match mapGet? zonesByName (normalizeHostname zoneName) with
      | none => Except.error ("No Cloudflare zone found for domain " ++ zoneName)
      | some zone =>
          let buckets := appendHostname buckets zone.id zone.name
          let names := collectHostnamesFromZoneRecords (recordsOf zone.id) blacklist
          let buckets := names.foldl (fun b n => appendHostname b zone.id n) buckets
          addZoneTargets zonesByName blacklist recordsOf buckets rest

/-- The result-assembly step of `collectZoneTargets`
(`targets.ts:113`–`122`). -/
def bucketsToResults (zonesById : List (String × CloudflareZone)) :
    TargetBuckets → Except String (List ZoneHostTargets)
  | [] => Except.ok []
  | (zoneId, bucket) :: rest =>
      match mapGet? zonesById zoneId with
      | none => Except.error ("Missing zone metadata for " ++ zoneId)
      | some zone => do
          let tail ← bucketsToResults zonesById rest
          Except.ok ({ zone := zone, hostnames := jsSortStrings (bucket.map (·.2)) } :: tail)

/-- `collectZoneTargets` from `update/targets.ts`, with the provider's
responses (`listZones`, per-zone `listDnsRecords`) as parameters. -/
def collectZoneTargets (config : TargetsConfig) (zones : List CloudflareZone)
    (recordsOf : String → List CloudflareDnsRecord) :
    Except String (List ZoneHostTargets) := do
  if zones.length == 0 then
    Except.error "No Cloudflare zones available for the configured token"
  else
    let blacklist := config.blacklist.map normalizeHostname
    let zonesByName := mapOfEntries (zones.map (fun z => (normalizeHostname z.name, z)))
    let zonesById := mapOfEntries (zones.map (fun z => (z.id, z)))
    let buckets ← addHostnameTargets zones blacklist [] config.hostnameTargets
    let buckets ← addZoneTargets zonesByName blacklist recordsOf buckets config.zoneTargets
    bucketsToResults zonesById buckets

/-! ## Address resolution (`apps/api/src/update/ip-resolver.ts`) -/

/-- The external echo endpoint for IPv4 (`api.ipify.org`). -/
def IPV4_URL : String := "https://api.ipify.org"

/-- The external echo endpoint for IPv6 / dual stack (`api64.ipify.org`). -/
def IPV6_URL : String := "https://api64.ipify.org"

/-- `requestIPv4` from `update/ip-resolver.ts`: `fetchResult` is the
outcome of `fetchText` (an `error` models a failed fetch), `isIP` is
`node:net`'s validator (`0` means not a valid IP). -/
def requestIPv4 (isIP : String → Nat) (fetchResult : Except String String) :
    Except String String :=
  match fetchResult with
  | .error e => .error e
  | .ok body =>
      let text := jsTrim body
      if isIP text == 0 then .error "Invalid IP response" else .ok text

/-- `requestIPv6` from `update/ip-resolver.ts`. -/
def requestIPv6 (isIP : String → Nat) (fetchResult : Except String String) :
    Except String String :=
  match fetchResult with
  | .error e => .error e
  | .ok body =>
      let text := jsTrim body
      if isIP text == 0 then .error "Invalid IP response" else .ok text

/-- JavaScript nullish coalescing `a ?? b` on optional values. -/
def jsNullish {α : Type} (a b : Option α) : Option α :=
  match a with
  | some v => some v
  | none => b

/-- `Promise.all`: succeeds with all results, fails if any task fails. -/
def awaitAll : List (Except String ResolvedIpAddresses) →
    Except String (List ResolvedIpAddresses)
  | [] => .ok []
  | t :: ts => do
      let r ← t
      let rs ← awaitAll ts
      .ok (r :: rs)

/-- `resolvePublicAddresses` from `update/ip-resolver.ts`.  Returns the
resolution outcome together with the list of endpoint URLs fetched
(a task's network call starts when the task is pushed). -/
def resolvePublicAddresses (isIP : String → Nat)
    (fetch4 fetch6 : Except String String) (includeIPv4 includeIPv6 : Bool) :
    Except String ResolvedIpAddresses × List String :=
  let tasks : List (String × Except String ResolvedIpAddresses) :=
    (if includeIPv4 then
      [(IPV4_URL, (requestIPv4 isIP fetch4).map (fun ip => { ipv4 := some ip }))]
     else []) ++
    (if includeIPv6 then
      [(IPV6_URL, (requestIPv6 isIP fetch6).map (fun ip => { ipv6 := some ip }))]
     else [])
  let calls := tasks.map (·.1)
  if tasks.length == 0 then
    (.error "At least one IP version must be requested", calls)
  else
    match awaitAll (tasks.map (·.2)) with
    | .error e => (.error e, calls)
    | .ok results =>
        (.ok (results.foldl
          (fun state entry =>
            { ipv4 := jsNullish entry.ipv4 state.ipv4, ipv6 := jsNullish entry.ipv6 state.ipv6 })
          {}), calls)

/-! ## Scheduler (`apps/api/src/scheduler.ts`) -/

/-- Mirrors `CloudflareErrorItem` from `cloudflare/client.ts`. -/
structure CloudflareErrorItem where
  code : Nat
  message : String
deriving DecidableEq, Repr

/-- Mirrors `UpdateSummary` from `update/index.ts`. -/
structure UpdateSummary where
  timestamp : String
  durationMs : Nat
  zoneCount : Nat
  hostnameCount : Nat
  changes : List RecordChange
deriving DecidableEq, Repr

/-- Mirrors `SchedulerError` from `scheduler.ts`. -/
structure SchedulerError where
  timestamp : String
  message : String
  stack : Option String := none
  status : Option Nat := none
  apiErrors : Option (List CloudflareErrorItem) := none
  responseBody : Option String := none
deriving DecidableEq, Repr

/-- The exception a pass can throw: a `CloudflareApiError` (with its
`status`, `errors` and optional `body` fields) or any other `Error`. -/
inductive PassError where
  | cloudflareApi (message : String) (stack : Option String) (status : Nat)
      (errors : List CloudflareErrorItem) (body : Option String)
  | runtime (message : String) (stack : Option String)
deriving DecidableEq, Repr

/-- The mutable closure state of `createScheduler` (without the timer
handle): the `running` flag and the retained last success / last
error. -/
structure SchedulerState where
  running : Bool
  lastSuccess : Option UpdateSummary := none
  lastError : Option SchedulerError := none
deriving DecidableEq, Repr

/-- The `catch` block of `execute` (`scheduler.ts:45`–`64`): builds the
retained `SchedulerError` from the thrown error, spreading in the
Cloudflare fields when the error is a `CloudflareApiError`. -/
def captureFailure (now : String) : PassError → SchedulerError
  | .cloudflareApi msg stack status errors body =>
      { timestamp := now, message := msg, stack := stack, status := some status,
        apiErrors := some errors, responseBody := body }
  | .runtime msg stack =>
      { timestamp := now, message := msg, stack := stack }

/-- The synchronous prefix of `execute` (`scheduler.ts:35`–`39`), up to
the first suspension point: `none` means the early return taken when a
pass is already running (so `performUpdate` is never invoked);
`some s'` means the pass was admitted and the flag set, atomically. -/
def executeEnter (s : SchedulerState) : Option SchedulerState :=
  if s.running then none else some { s with running := true }

/-- The remainder of `execute` after `performUpdate` settles
(`scheduler.ts:41`–`67`): record the outcome, then the `finally` block
clears `running`. -/
def applyOutcome (now : String) (outcome : Except PassError UpdateSummary)
    (s : SchedulerState) : SchedulerState :=
  match outcome with
  | .ok summary => { s with running := false, lastSuccess := some summary, lastError := none }
  | .error e => { s with running := false, lastError := some (captureFailure now e) }

/-- One uninterrupted run of `execute`, with `outcome` standing for the
result of `performUpdate`. -/
def execute (now : String) (outcome : Except PassError UpdateSummary)
    (s : SchedulerState) : SchedulerState :=
  match executeEnter s with
  | none => s
  | some s1 => applyOutcome now outcome s1

/-- `trigger` from `scheduler.ts:90`–`94`: awaits `execute`, then
returns `lastSuccess ?? null`. -/
def trigger (now : String) (outcome : Except PassError UpdateSummary)
    (s : SchedulerState) : SchedulerState × Option UpdateSummary :=
  let s1 := execute now outcome s
  (s1, s1.lastSuccess)

/-- The phase of one requested pass: waiting to run `execute`'s guard,
executing `performUpdate`, or returned. -/
inductive TaskPhase where
  | requested
  | active
  | finished
deriving DecidableEq, Repr

/-- Number of passes currently inside `performUpdate`. -/
def countActive (ts : List TaskPhase) : Nat :=
  (ts.filter (fun t => t == TaskPhase.active)).length

/-- Interleaving semantics of the scheduler: several requested passes
(timer ticks and triggers) race on the shared closure state.  The
guard check and flag set of `executeEnter` are one synchronous step
(no `await` between them, `scheduler.ts:35`–`39`); `finish` is the
settling of `performUpdate` followed by the rest of `execute`. -/
inductive SchedStep : SchedulerState × List TaskPhase → SchedulerState × List TaskPhase → Prop
  | skip (s : SchedulerState) (ts : List TaskPhase) (i : Nat) :
      ts.get? i = some .requested → executeEnter s = none →
      SchedStep (s, ts) (s, ts.set i .finished)
  | enter (s s' : SchedulerState) (ts : List TaskPhase) (i : Nat) :
      ts.get? i = some .requested → executeEnter s = some s' →
      SchedStep (s, ts) (s', ts.set i .active)
  | finish (s : SchedulerState) (ts : List TaskPhase) (i : Nat) (now : String)
      (outcome : Except PassError UpdateSummary) :
      ts.get? i = some .active →
      SchedStep (s, ts) (applyOutcome now outcome s, ts.set i .finished)

/-! ## Provider client (`apps/api/src/cloudflare/client.ts`) -/

/-- Mirrors `CloudflareResponse<T>` from `cloudflare/client.ts` (the
pagination info is not relevant to the verified claims). -/
structure CloudflareEnvelope (T : Type) where
  success : Bool
  result : T
  errors : List CloudflareErrorItem
deriving DecidableEq, Repr

/-- An HTTP response as observed by `CloudflareClient.request`:
`fetch`'s `response.status` and the awaited `response.text()`. -/
structure HttpResponse where
  status : Nat
  body : String
deriving DecidableEq, Repr

/-- `fetch`'s `Response.ok`: status in the 2xx range. -/
def httpOk (status : Nat) : Bool := 200 ≤ status && status < 300

/-- Outcome of `CloudflareClient.request`: a returned envelope, or a
thrown `CloudflareApiError` with its message, status, provider error
list and raw body. -/
inductive RequestOutcome (T : Type) where
  | ok (env : CloudflareEnvelope T)
  | err (message : String) (status : Nat) (errors : List CloudflareErrorItem) (body : String)
deriving DecidableEq

/-- `CloudflareClient.request` (`client.ts:149`–`202`), from the point
the response is in hand.  `parse` models `JSON.parse` followed by the
envelope typing: `none` is a parse failure. -/
def clientRequest {T : Type} (parse : String → Option (CloudflareEnvelope T))
    (resp : HttpResponse) : RequestOutcome T :=
  let rawBody := resp.body
  let parsed : Option (CloudflareEnvelope T) :=
    if rawBody.length > 0 then parse rawBody else none
  match parsed with
  | none =>
      if rawBody.length > 0 then
        -- JSON.parse threw inside the try block
        .err "Cloudflare API returned non-JSON response" resp.status [] rawBody
      else if !httpOk resp.status then
        .err ("Cloudflare API request failed with status " ++ toString resp.status)
          resp.status [] rawBody
      else
        .err "Cloudflare API returned an empty response" resp.status [] rawBody
  | some env =>
      if !httpOk resp.status || !env.success then
        .err ("Cloudflare API request failed with status " ++ toString resp.status)
          resp.status env.errors rawBody
      else
        .ok env

/-! ## Derived instances and definitions used by the statements -/

deriving instance DecidableEq for Except

/-- The `delete` change emitted for a record. -/
def deleteChangeFor (zoneId zoneName hostname : String) (r : CloudflareDnsRecord) :
    RecordChange :=
  { kind := .delete, recordType := r.type, hostname := hostname,
    zoneId := zoneId, zoneName := zoneName }

/-- The single-flight invariant: the number of passes inside
`performUpdate` is `1` exactly while `running` is set, `0` otherwise. -/
def SingleFlightInv (c : SchedulerState × List TaskPhase) : Prop :=
  countActive c.2 = if c.1.running then 1 else 0

/-- The bucket invariant behind the blacklist analysis: every stored
pair maps the canonical form of its original spelling, and no stored
hostname normalizes to the (blacklisted) hostname `h`. -/
def BucketOk (h : String) (buckets : TargetBuckets) : Prop :=
  ∀ p ∈ buckets, ∀ q ∈ p.2,
    q.1 = normalizeHostname q.2 ∧ q.1 ≠ normalizeHostname h

/-- The records of one hostname and one record type, in zone order. -/
def byNameType (hostname T : String) (rs : List CloudflareDnsRecord) :
    List CloudflareDnsRecord :=
  rs.filter (fun r => r.name == hostname && r.type == T)

/-- Provider-state sanity: stored record identifiers are pairwise
distinct and below the fresh-identifier counter (Cloudflare record ids
are unique). -/
def WellFormedZone (st : ZoneState) : Prop :=
  (∀ i ∈ st.records.map (fun r => r.id), i < st.nextId) ∧
  (st.records.map (fun r => r.id)).Nodup

/-! ## Helper lemmas: the reconciler -/

theorem deleteRecords_changes (zoneId zoneName hostname : String) :
    ∀ (rs : List CloudflareDnsRecord) (st : ZoneState),
      (deleteRecords st zoneId zoneName hostname rs).1 =
        rs.map (deleteChangeFor zoneId zoneName hostname)
  | [], _ => rfl
  | r :: rest, st => by
      simp [deleteRecords, deleteRecords_changes zoneId zoneName hostname rest,
        deleteChangeFor]

/-- The change list `ensureRecord` emits, in closed form. -/
theorem ensureRecord_changes (st : ZoneState) (zoneId zoneName hostname : String)
    (desired : DnsRecordInput) (existingRecords : List CloudflareDnsRecord) :
    (ensureRecord st zoneId zoneName hostname desired existingRecords).1 =
      match existingRecords with
      | [] =>
          [{ kind := .create, recordType := desired.type, hostname := hostname,
             zoneId := zoneId, zoneName := zoneName }]
      | primary :: duplicates =>
          (if shouldUpdate primary desired then
            { kind := .update, recordType := desired.type, hostname := hostname,
              zoneId := zoneId, zoneName := zoneName }
          else
            { kind := .skip, recordType := primary.type, hostname := hostname,
              zoneId := zoneId, zoneName := zoneName, reason := some "unchanged" }) ::
          duplicates.map (deleteChangeFor zoneId zoneName hostname) := by
  match existingRecords with
  | [] => rfl
  | primary :: duplicates =>
      by_cases h : shouldUpdate primary desired <;>
        simp [ensureRecord, h, createDnsRecord, updateDnsRecord, mkRecord,
          deleteRecords_changes]

/-- C1: with no existing record of the managed type `ensureRecord`
emits exactly one `create`; with `n ≥ 1` existing records it keeps the
first as primary — one `update` when `shouldUpdate` finds a difference
in content, proxy flag or TTL, otherwise one `skip` with reason
`"unchanged"` — followed by exactly one `delete` per remaining
duplicate, regardless of the duplicates' content. -/
theorem ensure_record_primary_and_duplicates (st : ZoneState)
    (zoneId zoneName hostname : String) (desired : DnsRecordInput)
    (existingRecords : List CloudflareDnsRecord) :
    (ensureRecord st zoneId zoneName hostname desired existingRecords).1 =
      match existingRecords with
      | [] =>
          [{ kind := .create, recordType := desired.type, hostname := hostname,
             zoneId := zoneId, zoneName := zoneName }]
      | primary :: duplicates =>
          (if shouldUpdate primary desired then
            { kind := .update, recordType := desired.type, hostname := hostname,
              zoneId := zoneId, zoneName := zoneName }
          else
            { kind := .skip, recordType := primary.type, hostname := hostname,
              zoneId := zoneId, zoneName := zoneName, reason := some "unchanged" }) ::
          duplicates.map (deleteChangeFor zoneId zoneName hostname) :=
  ensureRecord_changes st zoneId zoneName hostname desired existingRecords

theorem partitionRecords_eq (rs : List CloudflareDnsRecord) :
    partitionRecords rs =
      { aRecords := rs.filter (fun r => r.type == "A"),
        aaaaRecords := rs.filter (fun r => r.type == "AAAA"),
        cnameRecords := rs.filter (fun r => r.type == "CNAME") } := by
  induction rs with
  | nil => rfl
  | cons r rest ih =>
      by_cases hA : r.type = "A"
      · simp [partitionRecords, ih, List.filter_cons, hA]
      · by_cases hB : r.type = "AAAA"
        · simp [partitionRecords, ih, List.filter_cons, hA, hB]
        · by_cases hC : r.type = "CNAME"
          · simp [partitionRecords, ih, List.filter_cons, hA, hB, hC]
          · simp [partitionRecords, ih, List.filter_cons, hA, hB, hC]

theorem mem_partition_aRecords {rs : List CloudflareDnsRecord} {r : CloudflareDnsRecord}
    (h : r ∈ (partitionRecords rs).aRecords) : r.type = "A" := by
  rw [partitionRecords_eq] at h
  simpa using (List.of_mem_filter h)

theorem mem_partition_aaaaRecords {rs : List CloudflareDnsRecord} {r : CloudflareDnsRecord}
    (h : r ∈ (partitionRecords rs).aaaaRecords) : r.type = "AAAA" := by
  rw [partitionRecords_eq] at h
  simpa using (List.of_mem_filter h)

/-- The guarded CNAME cleanup (`reconcile.ts:140`–`143`) always emits
one `delete` change per CNAME record. -/
theorem guarded_delete_fst (st : ZoneState) (zoneId zoneName hostname : String)
    (rs : List CloudflareDnsRecord) :
    (if rs.length > 0 then deleteRecords st zoneId zoneName hostname rs else ([], st)).1 =
      rs.map (deleteChangeFor zoneId zoneName hostname) := by
  cases rs with
  | nil => rfl
  | cons r rest => simp [deleteRecords_changes]

theorem ensure_changes_type {st : ZoneState} {zoneId zoneName hostname : String}
    {desired : DnsRecordInput} {ex : List CloudflareDnsRecord} {T : String}
    (hd : desired.type = T) (hex : ∀ r ∈ ex, r.type = T) :
    ∀ c ∈ (ensureRecord st zoneId zoneName hostname desired ex).1, c.recordType = T := by
  intro c hc
  rw [ensureRecord_changes] at hc
  cases ex with
  | nil =>
      simp only [List.mem_singleton] at hc
      simp [hc, hd]
  | cons primary dups =>
      rcases List.mem_cons.mp hc with h | h
      · rcases hu : shouldUpdate primary desired with _ | _
        · simp only [hu, Bool.false_eq_true, if_false] at h
          simp [h, hex primary (by simp)]
        · simp only [hu, if_true] at h
          simp [h, hd]
      · rcases List.mem_map.mp h with ⟨r, hr, hrc⟩
        simp [← hrc, deleteChangeFor, hex r (by simp [hr])]

theorem delete_changes_type {zoneId zoneName hostname : String} {T : String}
    {rs : List CloudflareDnsRecord} {st : ZoneState} (hex : ∀ r ∈ rs, r.type = T) :
    ∀ c ∈ (deleteRecords st zoneId zoneName hostname rs).1, c.recordType = T := by
  intro c hc
  rw [deleteRecords_changes] at hc
  rcases List.mem_map.mp hc with ⟨r, hr, hrc⟩
  simp [← hrc, deleteChangeFor, hex r hr]

/-- Changes of monomorphic record type, split around an append. -/
theorem take_drop_shape (cn : List CloudflareDnsRecord) (zoneId zoneName hostname : String)
    (aCh aaaaCh : List RecordChange)
    (ha : ∀ c ∈ aCh, c.recordType = "A") (hb : ∀ c ∈ aaaaCh, c.recordType = "AAAA") :
    ((cn.map (deleteChangeFor zoneId zoneName hostname) ++ aCh ++ aaaaCh).take cn.length
       = cn.map (deleteChangeFor zoneId zoneName hostname)) ∧
    ∀ c ∈ (cn.map (deleteChangeFor zoneId zoneName hostname) ++ aCh ++ aaaaCh).drop cn.length,
      c.recordType = "A" ∨ c.recordType = "AAAA" := by
  constructor
  · rw [List.append_assoc]
    exact List.take_left' (by simp)
  · intro c hc
    rw [List.append_assoc, List.drop_left' (by simp)] at hc
    rcases List.mem_append.mp hc with h | h
    · exact Or.inl (ha c h)
    · exact Or.inr (hb c h)

/-- A successful `reconcileHostname` emits first the CNAME deletions
(one `delete` per CNAME record), and after them only changes of record
type `"A"` or `"AAAA"`. -/
theorem reconcile_ok_changes (config : ReconcileConfig) (st : ZoneState)
    (zoneId zoneName hostname : String) (ips : ResolvedIpAddresses)
    (res : List RecordChange × ZoneState)
    (h : reconcileHostname config st zoneId zoneName hostname ips = .ok res) :
    res.1.take (partitionRecords (listDnsRecordsByName st hostname)).cnameRecords.length =
      (partitionRecords (listDnsRecordsByName st hostname)).cnameRecords.map
        (deleteChangeFor zoneId zoneName hostname) ∧
    ∀ c ∈ res.1.drop (partitionRecords (listDnsRecordsByName st hostname)).cnameRecords.length,
      c.recordType = "A" ∨ c.recordType = "AAAA" := by
  simp only [reconcileHostname, bind, Except.bind, pure, Except.pure] at h
  set parts := partitionRecords (listDnsRecordsByName st hostname) with hparts
  by_cases h4 : config.includeIPv4 = true
  · rcases hip : ips.ipv4 with _ | ip
    · simp [h4, hip] at h
    · simp only [h4, hip, if_true] at h
      by_cases h6 : config.includeIPv6 = true
      · rcases hip6 : ips.ipv6 with _ | ip6
        · simp [h6, hip6] at h
        · simp only [h6, hip6, if_true] at h
          rw [Except.ok.injEq] at h
          subst h
          simpa [guarded_delete_fst] using
            take_drop_shape parts.cnameRecords zoneId zoneName hostname _ _ (ensure_changes_type rfl (fun r hr => mem_partition_aRecords hr))
              (ensure_changes_type rfl (fun r hr => mem_partition_aaaaRecords hr))
      · simp only [eq_false_of_ne_true h6, Bool.false_eq_true, if_false] at h
        by_cases hlen6 : parts.aaaaRecords.length > 0
        · simp only [hlen6, if_true] at h
          rw [Except.ok.injEq] at h
          subst h
          simpa [guarded_delete_fst] using
            take_drop_shape parts.cnameRecords zoneId zoneName hostname _ _ (ensure_changes_type rfl (fun r hr => mem_partition_aRecords hr))
              (delete_changes_type (fun r hr => mem_partition_aaaaRecords hr))
        · simp only [hlen6, if_false] at h
          rw [Except.ok.injEq] at h
          subst h
          simpa [guarded_delete_fst] using
            take_drop_shape parts.cnameRecords zoneId zoneName hostname _ []
              (ensure_changes_type rfl (fun r hr => mem_partition_aRecords hr)) (by simp)
  · simp only [eq_false_of_ne_true h4, Bool.false_eq_true, if_false] at h
    by_cases hlen4 : parts.aRecords.length > 0
    · simp only [hlen4, if_true] at h
      by_cases h6 : config.includeIPv6 = true
      · rcases hip6 : ips.ipv6 with _ | ip6
        · simp [h6, hip6] at h
        · simp only [h6, hip6, if_true] at h
          rw [Except.ok.injEq] at h
          subst h
          simpa [guarded_delete_fst] using
            take_drop_shape parts.cnameRecords zoneId zoneName hostname _ _ (delete_changes_type (fun r hr => mem_partition_aRecords hr))
              (ensure_changes_type rfl (fun r hr => mem_partition_aaaaRecords hr))
      · simp only [eq_false_of_ne_true h6, Bool.false_eq_true, if_false] at h
        by_cases hlen6 : parts.aaaaRecords.length > 0
        · simp only [hlen6, if_true] at h
          rw [Except.ok.injEq] at h
          subst h
          simpa [guarded_delete_fst] using
            take_drop_shape parts.cnameRecords zoneId zoneName hostname _ _ (delete_changes_type (fun r hr => mem_partition_aRecords hr))
              (delete_changes_type (fun r hr => mem_partition_aaaaRecords hr))
        · simp only [hlen6, if_false] at h
          rw [Except.ok.injEq] at h
          subst h
          simpa [guarded_delete_fst] using
            take_drop_shape parts.cnameRecords zoneId zoneName hostname _ []
              (delete_changes_type (fun r hr => mem_partition_aRecords hr)) (by simp)
    · simp only [hlen4, if_false] at h
      by_cases h6 : config.includeIPv6 = true
      · rcases hip6 : ips.ipv6 with _ | ip6
        · simp [h6, hip6] at h
        · simp only [h6, hip6, if_true] at h
          rw [Except.ok.injEq] at h
          subst h
          simpa [guarded_delete_fst] using
            take_drop_shape parts.cnameRecords zoneId zoneName hostname [] _ (by simp)
              (ensure_changes_type rfl (fun r hr => mem_partition_aaaaRecords hr))
      · simp only [eq_false_of_ne_true h6, Bool.false_eq_true, if_false] at h
        by_cases hlen6 : parts.aaaaRecords.length > 0
        · simp only [hlen6, if_true] at h
          rw [Except.ok.injEq] at h
          subst h
          simpa [guarded_delete_fst] using
            take_drop_shape parts.cnameRecords zoneId zoneName hostname [] _ (by simp)
              (delete_changes_type (fun r hr => mem_partition_aaaaRecords hr))
        · simp only [hlen6, if_false] at h
          rw [Except.ok.injEq] at h
          subst h
          simpa [guarded_delete_fst] using
            take_drop_shape parts.cnameRecords zoneId zoneName hostname [] [] (by simp) (by simp)

/-- Scenario helper: one existing CNAME, no other record for the
hostname, IPv4 on, IPv6 off: the pass deletes the CNAME and then
creates the A record. -/
theorem reconcile_single_cname (config : ReconcileConfig) (st : ZoneState)
    (zoneId zoneName hostname : String) (ips : ResolvedIpAddresses)
    (c : CloudflareDnsRecord) (ip : String)
    (hL : listDnsRecordsByName st hostname = [c]) (hc : c.type = "CNAME")
    (h4 : config.includeIPv4 = true) (h6 : config.includeIPv6 = false)
    (hip : ips.ipv4 = some ip) :
    ∃ st', reconcileHostname config st zoneId zoneName hostname ips =
      .ok ([deleteChangeFor zoneId zoneName hostname c,
            { kind := .create, recordType := "A", hostname := hostname,
              zoneId := zoneId, zoneName := zoneName }], st') := by
  have hp : partitionRecords [c] =
      { aRecords := [], aaaaRecords := [], cnameRecords := [c] } := by
    simp [partitionRecords, hc]
  refine ⟨(createDnsRecord (deleteDnsRecord st c.id)
    { type := "A", name := hostname, content := ip,
      proxied := config.proxied, ttl := AUTO_TTL }).2, ?_⟩
  simp [reconcileHostname, bind, Except.bind, pure, Except.pure, hL, hp, h4, h6, hip,
    deleteRecords, ensureRecord, createDnsRecord, mkRecord, deleteChangeFor]

/-- C2: `reconcileHostname` deletes every existing CNAME record first
(one `delete` change per CNAME), before any A/AAAA reconciliation
change; in particular with exactly one existing CNAME record, no other
record, IPv4 enabled and IPv6 disabled the pass yields exactly
[`delete` CNAME, `create` A], in that order. -/
theorem cname_deleted_before_address_steps (config : ReconcileConfig) (st : ZoneState)
    (zoneId zoneName hostname : String) (ips : ResolvedIpAddresses) :
    (∀ res, reconcileHostname config st zoneId zoneName hostname ips = .ok res →
      res.1.take (partitionRecords (listDnsRecordsByName st hostname)).cnameRecords.length =
        (partitionRecords (listDnsRecordsByName st hostname)).cnameRecords.map
          (deleteChangeFor zoneId zoneName hostname) ∧
      ∀ c ∈ res.1.drop
          (partitionRecords (listDnsRecordsByName st hostname)).cnameRecords.length,
        c.recordType = "A" ∨ c.recordType = "AAAA") ∧
    (∀ c ip, listDnsRecordsByName st hostname = [c] → c.type = "CNAME" →
      config.includeIPv4 = true → config.includeIPv6 = false → ips.ipv4 = some ip →
      ∃ st', reconcileHostname config st zoneId zoneName hostname ips =
        .ok ([deleteChangeFor zoneId zoneName hostname c,
              { kind := .create, recordType := "A", hostname := hostname,
                zoneId := zoneId, zoneName := zoneName }], st')) :=
  ⟨fun res h => reconcile_ok_changes config st zoneId zoneName hostname ips res h,
   fun c ip hL hc h4 h6 hip =>
     reconcile_single_cname config st zoneId zoneName hostname ips c ip hL hc h4 h6 hip⟩

/-- Witness for C2 at a concrete input: hostname `home.example.com`
with one CNAME record, IPv4 enabled, IPv6 disabled. -/
theorem cname_deleted_before_address_steps_witness :
    ∃ st', reconcileHostname { includeIPv4 := true, includeIPv6 := false, proxied := true }
      { nextId := 10,
        records := [{ id := 7, type := "CNAME", name := "home.example.com",
                      content := "target.example.net", proxied := false, ttl := 1 }] }
      "z1" "example.com" "home.example.com" { ipv4 := some "203.0.113.5", ipv6 := none } =
      .ok ([deleteChangeFor "z1" "example.com" "home.example.com"
              { id := 7, type := "CNAME", name := "home.example.com",
                content := "target.example.net", proxied := false, ttl := 1 },
            { kind := .create, recordType := "A", hostname := "home.example.com",
              zoneId := "z1", zoneName := "example.com" }], st') :=
  (cname_deleted_before_address_steps
      { includeIPv4 := true, includeIPv6 := false, proxied := true }
      { nextId := 10,
        records := [{ id := 7, type := "CNAME", name := "home.example.com",
                      content := "target.example.net", proxied := false, ttl := 1 }] }
      "z1" "example.com" "home.example.com"
      { ipv4 := some "203.0.113.5", ipv6 := none }).2
    { id := 7, type := "CNAME", name := "home.example.com",
      content := "target.example.net", proxied := false, ttl := 1 }
    "203.0.113.5" (by decide) rfl rfl rfl rfl

/-! ## Helper lemmas: the scheduler -/

theorem countActive_set (ts : List TaskPhase) (i : Nat) (a b : TaskPhase)
    (h : ts.get? i = some a) :
    countActive (ts.set i b) + (if a == TaskPhase.active then 1 else 0) =
      countActive ts + (if b == TaskPhase.active then 1 else 0) := by
  induction ts generalizing i with
  | nil => simp at h
  | cons t rest ih =>
      cases i with
      | zero =>
          simp only [List.get?] at h
          cases h
          simp only [List.set, countActive, List.filter_cons]
          rcases hb : b == TaskPhase.active <;> rcases ha : a == TaskPhase.active <;>
            simp only [hb, ha, Bool.false_eq_true, if_false, if_true, List.length_cons]
      | succ n =>
          simp only [List.get?] at h
          have hrec := ih n h
          simp only [countActive] at hrec
          simp only [List.set, countActive, List.filter_cons]
          rcases ht : t == TaskPhase.active <;>
            simp only [ht, Bool.false_eq_true, if_false, if_true, List.length_cons] <;>
            omega

theorem executeEnter_none {s : SchedulerState} (h : executeEnter s = none) :
    s.running = true := by
  rcases hr : s.running
  · simp [executeEnter, hr] at h
  · rfl

theorem executeEnter_some {s s' : SchedulerState} (h : executeEnter s = some s') :
    s.running = false ∧ s' = { s with running := true } := by
  rcases hr : s.running
  · simp only [executeEnter, hr, Bool.false_eq_true, if_false, Option.some.injEq] at h
    exact ⟨rfl, h.symm⟩
  · simp [executeEnter, hr] at h

theorem applyOutcome_running (now : String) (outcome : Except PassError UpdateSummary)
    (s : SchedulerState) : (applyOutcome now outcome s).running = false := by
  cases outcome <;> simp [applyOutcome]

theorem schedStep_preserves_inv {c c' : SchedulerState × List TaskPhase}
    (hstep : SchedStep c c') (hinv : SingleFlightInv c) : SingleFlightInv c' := by
  cases hstep with
  | skip s ts i hget henter =>
      have hrun := executeEnter_none henter
      have hcnt := countActive_set ts i .requested .finished hget
      simp only [SingleFlightInv] at hinv ⊢
      simp only [hrun, if_true] at hinv ⊢
      simp at hcnt
      omega
  | enter s s' ts i hget henter =>
      obtain ⟨hrun, hs'⟩ := executeEnter_some henter
      have hcnt := countActive_set ts i .requested .active hget
      simp only [SingleFlightInv] at hinv ⊢
      simp only [hrun, Bool.false_eq_true, if_false] at hinv
      subst hs'
      show countActive (ts.set i TaskPhase.active) = 1
      simp at hcnt
      omega
  | finish s ts i now outcome hget =>
      have hmem : TaskPhase.active ∈ ts := List.get?_mem hget
      have hpos : 0 < countActive ts := by
        simp only [countActive]
        exact List.length_pos.mpr
          (List.ne_nil_of_mem (List.mem_filter.mpr ⟨hmem, by simp⟩))
      simp only [SingleFlightInv] at hinv ⊢
      have hrun : s.running = true := by
        rcases hr : s.running
        · exfalso
          simp only [hr, Bool.false_eq_true, if_false] at hinv
          omega
        · rfl
      have hcnt := countActive_set ts i .active .finished hget
      simp only [hrun, if_true] at hinv
      rw [applyOutcome_running]
      simp only [Bool.false_eq_true, if_false]
      simp at hcnt
      omega

theorem reachable_inv {c c' : SchedulerState × List TaskPhase}
    (h : Relation.ReflTransGen SchedStep c c') (hinv : SingleFlightInv c) :
    SingleFlightInv c' := by
  induction h with
  | refl => exact hinv
  | tail _ hstep ih => exact schedStep_preserves_inv hstep ih

/-- C5: a pass requested while `running` is a no-op — `execute` returns
with the state untouched (`executeEnter` yields `none`, so
`performUpdate` is not invoked and `lastSuccess`/`lastError` keep
their values) — and along every step sequence from a quiescent start
at most one pass is ever inside `performUpdate`. -/
theorem scheduler_single_flight (now : String)
    (outcome : Except PassError UpdateSummary) (s : SchedulerState)
    (c₀ c : SchedulerState × List TaskPhase)
    (hrun : s.running = true) (hidle : c₀.1.running = false) (hact : countActive c₀.2 = 0)
    (hreach : Relation.ReflTransGen SchedStep c₀ c) :
    execute now outcome s = s ∧ executeEnter s = none ∧ countActive c.2 ≤ 1 := by
  refine ⟨?_, ?_, ?_⟩
  · simp [execute, executeEnter, hrun]
  · simp [executeEnter, hrun]
  · have h₀ : SingleFlightInv c₀ := by
      simp [SingleFlightInv, hidle, hact]
    have h₁ := reachable_inv hreach h₀
    simp only [SingleFlightInv] at h₁
    rcases hr : c.1.running <;> simp [hr] at h₁ <;> omega

/-- Witness for C5: a running scheduler ignores a trigger, and a
two-task race (one admitted, one skipped) keeps at most one pass
active. -/
theorem scheduler_single_flight_witness :
    execute "t1" (Except.error (PassError.runtime "boom" none))
        { running := true, lastSuccess := none, lastError := none } =
      { running := true, lastSuccess := none, lastError := none } ∧
    executeEnter { running := true, lastSuccess := none, lastError := none } = none ∧
    countActive [TaskPhase.active, TaskPhase.requested] ≤ 1 := by
  have hstep1 : SchedStep
      ({ running := false, lastSuccess := none, lastError := none },
        [TaskPhase.requested, TaskPhase.requested])
      ({ running := true, lastSuccess := none, lastError := none },
        [TaskPhase.active, TaskPhase.requested]) := by
    have := SchedStep.enter
      { running := false, lastSuccess := none, lastError := none }
      { running := true, lastSuccess := none, lastError := none }
      [TaskPhase.requested, TaskPhase.requested] 0 rfl rfl
    simpa using this
  exact scheduler_single_flight "t1" (Except.error (PassError.runtime "boom" none))
    { running := true, lastSuccess := none, lastError := none }
    ({ running := false, lastSuccess := none, lastError := none },
      [TaskPhase.requested, TaskPhase.requested])
    ({ running := true, lastSuccess := none, lastError := none },
      [TaskPhase.active, TaskPhase.requested])
    rfl rfl (by decide) (Relation.ReflTransGen.single hstep1)

/-- C6: a pass that actually runs replaces `lastSuccess` and clears
`lastError` on success; on failure it replaces `lastError` with the
captured detail (carrying HTTP status, provider error list and raw
body when the failure is a `CloudflareApiError`) and leaves
`lastSuccess` untouched. -/
theorem scheduler_pass_frame (now : String) (s : SchedulerState)
    (summary : UpdateSummary) (e : PassError) (hrun : s.running = false) :
    execute now (.ok summary) s =
      { running := false, lastSuccess := some summary, lastError := none } ∧
    (execute now (.error e) s).lastSuccess = s.lastSuccess ∧
    (execute now (.error e) s).lastError = some (captureFailure now e) ∧
    (execute now (.error e) s).running = false ∧
    (∀ msg stack status errs body, e = .cloudflareApi msg stack status errs body →
      captureFailure now e =
        { timestamp := now, message := msg, stack := stack, status := some status,
          apiErrors := some errs, responseBody := body }) := by
  refine ⟨?_, ?_, ?_, ?_, ?_⟩
  · simp [execute, executeEnter, hrun, applyOutcome]
  · simp [execute, executeEnter, hrun, applyOutcome]
  · simp [execute, executeEnter, hrun, applyOutcome]
  · simp [execute, executeEnter, hrun, applyOutcome]
  · intro msg stack status errs body he
    subst he
    rfl

/-- Witness for C6: a failing pass keeps the previously retained
summary and records the Cloudflare error detail. -/
theorem scheduler_pass_frame_witness :
    (execute "t2" (Except.error
        (PassError.cloudflareApi "req failed" none 500 [{ code := 10000, message := "auth" }]
          (some "body")))
      { running := false,
        lastSuccess := some { timestamp := "t0", durationMs := 5, zoneCount := 1,
                              hostnameCount := 1, changes := [] },
        lastError := none }).lastSuccess =
      some { timestamp := "t0", durationMs := 5, zoneCount := 1,
             hostnameCount := 1, changes := [] } ∧
    (execute "t2" (Except.error
        (PassError.cloudflareApi "req failed" none 500 [{ code := 10000, message := "auth" }]
          (some "body")))
      { running := false,
        lastSuccess := some { timestamp := "t0", durationMs := 5, zoneCount := 1,
                              hostnameCount := 1, changes := [] },
        lastError := none }).lastError =
      some (captureFailure "t2"
        (PassError.cloudflareApi "req failed" none 500 [{ code := 10000, message := "auth" }]
          (some "body"))) :=
  ⟨(scheduler_pass_frame "t2"
      { running := false,
        lastSuccess := some { timestamp := "t0", durationMs := 5, zoneCount := 1,
                              hostnameCount := 1, changes := [] },
        lastError := none }
      { timestamp := "tX", durationMs := 0, zoneCount := 0, hostnameCount := 0, changes := [] }
      (PassError.cloudflareApi "req failed" none 500 [{ code := 10000, message := "auth" }]
        (some "body")) rfl).2.1,
   (scheduler_pass_frame "t2"
      { running := false,
        lastSuccess := some { timestamp := "t0", durationMs := 5, zoneCount := 1,
                              hostnameCount := 1, changes := [] },
        lastError := none }
      { timestamp := "tX", durationMs := 0, zoneCount := 0, hostnameCount := 0, changes := [] }
      (PassError.cloudflareApi "req failed" none 500 [{ code := 10000, message := "auth" }]
        (some "body")) rfl).2.2.1⟩

/-- The claim that `trigger` returns nothing whenever its pass fails is
refuted by the code: `trigger` returns `lastSuccess ?? null`, and a
failing pass leaves a previously retained `lastSuccess` in place, so
the stale summary is returned instead of nothing. -/
theorem trigger_returns_stale_success_on_failure :
    (trigger "t3" (Except.error (PassError.runtime "boom" none))
        { running := false,
          lastSuccess := some { timestamp := "t0", durationMs := 5, zoneCount := 1,
                                hostnameCount := 1, changes := [] },
          lastError := none }).2 =
      some { timestamp := "t0", durationMs := 5, zoneCount := 1,
             hostnameCount := 1, changes := [] } ∧
    (trigger "t3" (Except.error (PassError.runtime "boom" none))
        { running := false,
          lastSuccess := some { timestamp := "t0", durationMs := 5, zoneCount := 1,
                                hostnameCount := 1, changes := [] },
          lastError := none }).2 ≠ none := by
  constructor
  · rfl
  · intro h
    simp [trigger, execute, executeEnter, applyOutcome] at h

/-- C7 (amended): when no pass is running, `trigger` runs one pass and
returns the retained `lastSuccess` after it: the new summary when the
pass succeeded, and on failure the previously retained summary (which
may be `some` older summary, or `none` when there is none). -/
theorem trigger_returns_retained_success (now : String) (s : SchedulerState)
    (outcome : Except PassError UpdateSummary) (hrun : s.running = false) :
    (∀ summary, outcome = .ok summary →
      (trigger now outcome s).2 = some summary) ∧
    (∀ e, outcome = .error e → (trigger now outcome s).2 = s.lastSuccess) := by
  constructor
  · intro summary h
    subst h
    simp [trigger, execute, executeEnter, hrun, applyOutcome]
  · intro e h
    subst h
    simp [trigger, execute, executeEnter, hrun, applyOutcome]

/-- Witness for the amended C7: a succeeding triggered pass returns its
new summary; a failing one returns the retained summary. -/
theorem trigger_returns_retained_success_witness :
    (trigger "t4" (Except.ok { timestamp := "t4", durationMs := 1, zoneCount := 1,
                               hostnameCount := 2, changes := [] })
      { running := false, lastSuccess := none, lastError := none }).2 =
      some { timestamp := "t4", durationMs := 1, zoneCount := 1,
             hostnameCount := 2, changes := [] } ∧
    (trigger "t4" (Except.error (PassError.runtime "down" none))
      { running := false, lastSuccess := none, lastError := none }).2 = none :=
  ⟨(trigger_returns_retained_success "t4"
      { running := false, lastSuccess := none, lastError := none }
      (Except.ok { timestamp := "t4", durationMs := 1, zoneCount := 1,
                   hostnameCount := 2, changes := [] }) rfl).1
      { timestamp := "t4", durationMs := 1, zoneCount := 1,
        hostnameCount := 2, changes := [] } rfl,
   (trigger_returns_retained_success "t4"
      { running := false, lastSuccess := none, lastError := none }
      (Except.error (PassError.runtime "down" none)) rfl).2
      (PassError.runtime "down" none) rfl⟩

/-- C10: a response with an empty body makes `request` throw a
`CloudflareApiError` even on a 2xx status (carrying the status, an
empty provider-error list and the empty raw body), and every envelope
returned by `request` was parsed from a non-empty body and reports
`success = true`. -/
theorem client_request_empty_body_and_success {T : Type}
    (parse : String → Option (CloudflareEnvelope T)) (resp : HttpResponse) :
    (resp.body = "" →
      clientRequest parse resp =
        .err (if httpOk resp.status then "Cloudflare API returned an empty response"
              else "Cloudflare API request failed with status " ++ toString resp.status)
          resp.status [] "") ∧
    (∀ env, clientRequest parse resp = .ok env →
      parse resp.body = some env ∧ env.success = true ∧ resp.body ≠ "") := by
  constructor
  · intro hb
    rcases hok : httpOk resp.status <;>
      simp [clientRequest, hb, hok]
  · intro env h
    by_cases hlen : resp.body.length > 0
    · rcases hp : parse resp.body with _ | env'
      · simp [clientRequest, hlen, hp] at h
      · by_cases hcond : (!httpOk resp.status || !env'.success) = true
        · simp [clientRequest, hlen, hp, hcond] at h
        · simp only [clientRequest, hlen, if_true, hp, hcond, Bool.false_eq_true,
            if_false, RequestOutcome.ok.injEq] at h
          have hsucc : env'.success = true := by
            rcases hcondb : env'.success
            · exact absurd (by simp [hcondb]) hcond
            · rfl
          refine ⟨?_, ?_, ?_⟩
          · rw [h]
          · rw [← h]
            exact hsucc
          · intro hb
            rw [hb] at hlen
            simp at hlen
    · exfalso
      simp [clientRequest, hlen] at h
      rcases hok : httpOk resp.status <;> simp [hok] at h

/-- Witness for C10: a `204` response with an empty body throws the
empty-response error. -/
theorem client_request_empty_body_witness :
    clientRequest (fun _ => (none : Option (CloudflareEnvelope Nat)))
        { status := 204, body := "" } =
      .err "Cloudflare API returned an empty response" 204 [] "" :=
  (client_request_empty_body_and_success
    (fun _ => (none : Option (CloudflareEnvelope Nat)))
    { status := 204, body := "" }).1 rfl

/-! ## The IP resolver -/

theorem awaitAll_cons_error (e : String) (ts : List (Except String ResolvedIpAddresses)) :
    awaitAll (.error e :: ts) = .error e := rfl

/-- C8: `resolvePublicAddresses` yields no partial result — it fails
outright when a requested family's fetch fails or returns a string the
IP validator rejects — and with both families disabled it fails
without fetching any endpoint. -/
theorem resolve_addresses_all_or_nothing (isIP : String → Nat)
    (fetch4 fetch6 : Except String String) (b4 b6 : Bool) :
    (b4 = false → b6 = false →
      (resolvePublicAddresses isIP fetch4 fetch6 b4 b6).1 =
        .error "At least one IP version must be requested" ∧
      (resolvePublicAddresses isIP fetch4 fetch6 b4 b6).2 = []) ∧
    (b4 = true → ∀ e, fetch4 = .error e →
      ∃ e', (resolvePublicAddresses isIP fetch4 fetch6 b4 b6).1 = .error e') ∧
    (b4 = true → ∀ s, fetch4 = .ok s → isIP (jsTrim s) = 0 →
      ∃ e', (resolvePublicAddresses isIP fetch4 fetch6 b4 b6).1 = .error e') ∧
    (b6 = true → ∀ e, fetch6 = .error e →
      ∃ e', (resolvePublicAddresses isIP fetch4 fetch6 b4 b6).1 = .error e') ∧
    (b6 = true → ∀ s, fetch6 = .ok s → isIP (jsTrim s) = 0 →
      ∃ e', (resolvePublicAddresses isIP fetch4 fetch6 b4 b6).1 = .error e') := by
  refine ⟨?_, ?_, ?_, ?_, ?_⟩
  · intro h4 h6
    simp [resolvePublicAddresses, h4, h6]
  · intro h4 e he
    have hreq : requestIPv4 isIP fetch4 = .error e := by simp [requestIPv4, he]
    cases b6 <;>
      simp [resolvePublicAddresses, h4, hreq, awaitAll, bind, Except.bind, Except.map]
  · intro h4 s hs hbad
    have hreq : requestIPv4 isIP fetch4 = .error "Invalid IP response" := by
      simp [requestIPv4, hs, hbad]
    cases b6 <;>
      simp [resolvePublicAddresses, h4, hreq, awaitAll, bind, Except.bind, Except.map]
  · intro h6 e he
    have hreq : requestIPv6 isIP fetch6 = .error e := by simp [requestIPv6, he]
    cases b4
    · simp [resolvePublicAddresses, h6, hreq, awaitAll, bind, Except.bind, Except.map]
    · rcases h4res : requestIPv4 isIP fetch4 with e4 | v4 <;>
        simp [resolvePublicAddresses, h6, h4res, hreq, awaitAll, bind, Except.bind,
          Except.map]
  · intro h6 s hs hbad
    have hreq : requestIPv6 isIP fetch6 = .error "Invalid IP response" := by
      simp [requestIPv6, hs, hbad]
    cases b4
    · simp [resolvePublicAddresses, h6, hreq, awaitAll, bind, Except.bind, Except.map]
    · rcases h4res : requestIPv4 isIP fetch4 with e4 | v4 <;>
        simp [resolvePublicAddresses, h6, h4res, hreq, awaitAll, bind, Except.bind,
          Except.map]

/-- Witness for C8: no requested family fails without a network call,
and a malformed IPv4 echo fails the whole resolution. -/
theorem resolve_addresses_all_or_nothing_witness :
    ((resolvePublicAddresses (fun _ => 0) (.ok "4") (.ok "6") false false).1 =
        .error "At least one IP version must be requested" ∧
      (resolvePublicAddresses (fun _ => 0) (.ok "4") (.ok "6") false false).2 = []) ∧
    ∃ e', (resolvePublicAddresses (fun _ => 0) (.ok "not-an-ip") (.ok "6") true false).1 =
      .error e' :=
  ⟨(resolve_addresses_all_or_nothing (fun _ => 0) (.ok "4") (.ok "6") false false).1
      rfl rfl,
   (resolve_addresses_all_or_nothing (fun _ => 0) (.ok "not-an-ip") (.ok "6")
      true false).2.2.1 rfl "not-an-ip" rfl rfl⟩

/-! ## Target discovery lemmas -/

theorem findZone_foldl_spec (hostname : String) :
    ∀ (zs : List CloudflareZone) (acc : Option CloudflareZone),
      (∀ mz, acc = some mz → zoneMatches hostname mz = true) →
      ((zs.foldl
          (fun m zone =>
            if zoneMatches hostname zone then
              match m with
              | none => some zone
              | some mz =>
                  if (normalizeHostname zone.name).length > (normalizeHostname mz.name).length
                  then some zone else m
            else m)
          acc = none →
        acc = none ∧ ∀ z ∈ zs, zoneMatches hostname z = false) ∧
      (∀ m, zs.foldl
          (fun m zone =>
            if zoneMatches hostname zone then
              match m with
              | none => some zone
              | some mz =>
                  if (normalizeHostname zone.name).length > (normalizeHostname mz.name).length
                  then some zone else m
            else m)
          acc = some m →
        zoneMatches hostname m = true ∧ (m ∈ zs ∨ acc = some m) ∧
        (∀ z ∈ zs, zoneMatches hostname z = true →
          (normalizeHostname z.name).length ≤ (normalizeHostname m.name).length) ∧
        (∀ m0, acc = some m0 →
          (normalizeHostname m0.name).length ≤ (normalizeHostname m.name).length)))
  | [], acc => by
      intro hacc
      constructor
      · intro h
        exact ⟨h, by simp⟩
      · intro m hres
        exact ⟨hacc m hres, Or.inr hres, by simp, fun m0 h0 => by
          rw [h0] at hres
          cases hres
          exact le_refl _⟩
  | z :: zs, acc => by
      intro hacc
      by_cases hm : zoneMatches hostname z = true
      · rcases hoa : acc with _ | mz
        · -- accumulator empty: z becomes the new candidate
          have ih := findZone_foldl_spec hostname zs (some z)
            (fun mz h => by cases h; exact hm)
          constructor
          · intro hres
            simp only [List.foldl_cons, hm, if_true, hoa] at hres
            exact absurd (ih.1 hres).1 (by simp)
          · intro m hres
            simp only [List.foldl_cons, hm, if_true, hoa] at hres
            obtain ⟨h1, h2, h3, h4⟩ := ih.2 m hres
            refine ⟨h1, ?_, ?_, ?_⟩
            · rcases h2 with h | h
              · exact Or.inl (List.mem_cons_of_mem _ h)
              · cases h
                exact Or.inl (List.mem_cons_self _ _)
            · intro z' hz' hmz'
              rcases List.mem_cons.mp hz' with h | h
              · cases h
                exact h4 z rfl
              · exact h3 z' h hmz'
            · intro m0 h0
              exact absurd h0 (by simp)
        · -- accumulator holds a candidate: longer zone name wins
          by_cases hlt : (normalizeHostname z.name).length > (normalizeHostname mz.name).length
          · have ih := findZone_foldl_spec hostname zs (some z)
              (fun mz' h => by cases h; exact hm)
            constructor
            · intro hres
              simp only [List.foldl_cons, hm, if_true, hoa, hlt] at hres
              exact absurd (ih.1 hres).1 (by simp)
            · intro m hres
              simp only [List.foldl_cons, hm, if_true, hoa, hlt] at hres
              obtain ⟨h1, h2, h3, h4⟩ := ih.2 m hres
              refine ⟨h1, ?_, ?_, ?_⟩
              · rcases h2 with h | h
                · exact Or.inl (List.mem_cons_of_mem _ h)
                · cases h
                  exact Or.inl (List.mem_cons_self _ _)
              · intro z' hz' hmz'
                rcases List.mem_cons.mp hz' with h | h
                · cases h
                  exact h4 z rfl
                · exact h3 z' h hmz'
              · intro m0 h0
                injection h0 with h0'
                subst h0'
                exact le_trans (le_of_lt hlt) (h4 z rfl)
          · have ih := findZone_foldl_spec hostname zs (some mz)
              (fun mz' h => by cases h; exact hacc mz hoa)
            constructor
            · intro hres
              simp only [List.foldl_cons, hm, if_true, hoa, hlt] at hres
              exact absurd (ih.1 hres).1 (by simp)
            · intro m hres
              simp only [List.foldl_cons, hm, if_true, hoa, hlt] at hres
              obtain ⟨h1, h2, h3, h4⟩ := ih.2 m hres
              refine ⟨h1, ?_, ?_, ?_⟩
              · rcases h2 with h | h
                · exact Or.inl (List.mem_cons_of_mem _ h)
                · exact Or.inr h
              · intro z' hz' hmz'
                rcases List.mem_cons.mp hz' with h | h
                · cases h
                  exact le_trans (le_of_not_lt hlt) (h4 mz rfl)
                · exact h3 z' h hmz'
              · intro m0 h0
                injection h0 with h0'
                subst h0'
                exact h4 mz rfl
      · have ih := findZone_foldl_spec hostname zs acc hacc
        constructor
        · intro hres
          simp only [List.foldl_cons, hm, if_false] at hres
          obtain ⟨h1, h2⟩ := ih.1 hres
          refine ⟨h1, ?_⟩
          intro z' hz'
          rcases List.mem_cons.mp hz' with h | h
          · cases h
            simpa using hm
          · exact h2 z' h
        · intro m hres
          simp only [List.foldl_cons, hm, if_false] at hres
          obtain ⟨h1, h2, h3, h4⟩ := ih.2 m hres
          refine ⟨h1, ?_, ?_, h4⟩
          · rcases h2 with h | h
            · exact Or.inl (List.mem_cons_of_mem _ h)
            · exact Or.inr h
          · intro z' hz' hmz'
            rcases List.mem_cons.mp hz' with h | h
            · cases h
              exact absurd hmz' (by simpa using hm)
            · exact h3 z' h hmz'

theorem findZoneForHostname_none {hostname : String} {zones : List CloudflareZone}
    (h : findZoneForHostname hostname zones = none) :
    ∀ z ∈ zones, zoneMatches hostname z = false :=
  ((findZone_foldl_spec hostname zones none (by simp)).1 h).2

theorem findZoneForHostname_some {hostname : String} {zones : List CloudflareZone}
    {m : CloudflareZone} (h : findZoneForHostname hostname zones = some m) :
    m ∈ zones ∧ zoneMatches hostname m = true ∧
      ∀ z ∈ zones, zoneMatches hostname z = true →
        (normalizeHostname z.name).length ≤ (normalizeHostname m.name).length := by
  obtain ⟨h1, h2, h3, _⟩ := (findZone_foldl_spec hostname zones none (by simp)).2 m h
  rcases h2 with h2 | h2
  · exact ⟨h2, h1, h3⟩
  · cases h2

theorem addHostnameTargets_error (zones : List CloudflareZone) (blacklist : List String)
    (h : String) :
    ∀ (hs : List String) (buckets : TargetBuckets), h ∈ hs →
      isBlacklisted h blacklist = false → findZoneForHostname h zones = none →
      ∃ e, addHostnameTargets zones blacklist buckets hs = .error e
  | [], _, hmem, _, _ => absurd hmem (by simp)
  | h0 :: rest, buckets, hmem, hbl, hfind => by
      rcases List.mem_cons.mp hmem with heq | hmem'
      · cases heq
        refine ⟨"No Cloudflare zone found for hostname " ++ h, ?_⟩
        simp [addHostnameTargets, hbl, hfind]
      · by_cases hbl0 : isBlacklisted h0 blacklist = true
        · have ih := addHostnameTargets_error zones blacklist h rest buckets hmem' hbl hfind
          simpa [addHostnameTargets, hbl0] using ih
        · rcases hf0 : findZoneForHostname h0 zones with _ | z0
          · refine ⟨"No Cloudflare zone found for hostname " ++ h0, ?_⟩
            simp [addHostnameTargets, eq_false_of_ne_true hbl0, hf0]
          · have ih := addHostnameTargets_error zones blacklist h rest
              (appendHostname buckets z0.id h0) hmem' hbl hfind
            simpa [addHostnameTargets, eq_false_of_ne_true hbl0, hf0] using ih

theorem collectZoneTargets_unowned_hostname_error (config : TargetsConfig)
    (zones : List CloudflareZone) (recordsOf : String → List CloudflareDnsRecord)
    (h : String) (hmem : h ∈ config.hostnameTargets)
    (hbl : isBlacklisted h (config.blacklist.map normalizeHostname) = false)
    (hfind : findZoneForHostname h zones = none) :
    ∃ e, collectZoneTargets config zones recordsOf = .error e := by
  by_cases hz : (zones.length == 0) = true
  · simp only [collectZoneTargets, hz, if_true]
    exact ⟨_, rfl⟩
  · obtain ⟨e, he⟩ := addHostnameTargets_error zones (config.blacklist.map normalizeHostname)
      h config.hostnameTargets [] hmem hbl hfind
    simp only [collectZoneTargets, hz, Bool.false_eq_true, if_false, he, bind, Except.bind]
    exact ⟨e, rfl⟩

/-- C3: `findZoneForHostname` returns a zone that qualifies (its
canonical name equals the canonical hostname or is a `.`-boundary
suffix of it) of maximal canonical-name length among all qualifying
zones; the `svc.api.example.com` example resolves to
`api.example.com`; and when no zone qualifies for an explicitly
configured (non-blacklisted) hostname, `collectZoneTargets` fails as a
whole. -/
theorem hostname_assigned_to_longest_matching_zone (hostname : String)
    (zones : List CloudflareZone) (config : TargetsConfig)
    (recordsOf : String → List CloudflareDnsRecord) :
    (∀ m, findZoneForHostname hostname zones = some m →
      m ∈ zones ∧ zoneMatches hostname m = true ∧
      ∀ z ∈ zones, zoneMatches hostname z = true →
        (normalizeHostname z.name).length ≤ (normalizeHostname m.name).length) ∧
    (findZoneForHostname hostname zones = none →
      (∀ z ∈ zones, zoneMatches hostname z = false) ∧
      (hostname ∈ config.hostnameTargets →
        isBlacklisted hostname (config.blacklist.map normalizeHostname) = false →
        ∃ e, collectZoneTargets config zones recordsOf = .error e)) ∧
    findZoneForHostname "svc.api.example.com"
      [{ id := "z1", name := "example.com" }, { id := "z2", name := "api.example.com" }] =
      some { id := "z2", name := "api.example.com" } := by
  refine ⟨fun m hm => findZoneForHostname_some hm, fun hnone => ⟨findZoneForHostname_none hnone, ?_⟩, by decide⟩
  intro hmem hbl
  exact collectZoneTargets_unowned_hostname_error config zones recordsOf hostname hmem hbl
    hnone

/-- Witness for C3: the longest-match example, and a hostname owned by
no zone making the whole discovery fail. -/
theorem hostname_assigned_to_longest_matching_zone_witness :
    (({ id := "z2", name := "api.example.com" } : CloudflareZone) ∈
        ([{ id := "z1", name := "example.com" },
          { id := "z2", name := "api.example.com" }] : List CloudflareZone) ∧
      zoneMatches "svc.api.example.com" { id := "z2", name := "api.example.com" } = true ∧
      ∀ z ∈ ([{ id := "z1", name := "example.com" },
          { id := "z2", name := "api.example.com" }] : List CloudflareZone),
        zoneMatches "svc.api.example.com" z = true →
        (normalizeHostname z.name).length ≤
          (normalizeHostname ("api.example.com" : String)).length) ∧
    ∃ e, collectZoneTargets
      { hostnameTargets := ["orphan.net"], zoneTargets := [], blacklist := [] }
      [{ id := "z1", name := "example.com" }, { id := "z2", name := "api.example.com" }]
      (fun _ => []) = .error e :=
  ⟨(hostname_assigned_to_longest_matching_zone "svc.api.example.com"
      [{ id := "z1", name := "example.com" }, { id := "z2", name := "api.example.com" }]
      { hostnameTargets := [], zoneTargets := [], blacklist := [] } (fun _ => [])).1
      { id := "z2", name := "api.example.com" } (by decide),
   ((hostname_assigned_to_longest_matching_zone "orphan.net"
      [{ id := "z1", name := "example.com" }, { id := "z2", name := "api.example.com" }]
      { hostnameTargets := ["orphan.net"], zoneTargets := [], blacklist := [] }
      (fun _ => [])).2.1 (by decide)).2 (by decide) (by decide)⟩

/-! ## Blacklist exclusion -/

theorem mem_mapSet {β : Type} (m : List (String × β)) (k : String) (v : β) :
    ∀ p ∈ mapSet m k v, p ∈ m ∨ p = (k, v) := by
  intro p hp
  unfold mapSet at hp
  by_cases hc : (m.any (fun e => e.1 == k)) = true
  · rw [if_pos hc] at hp
    rcases List.mem_map.mp hp with ⟨q, hq, hqe⟩
    by_cases hqk : (q.1 == k) = true
    · right
      rw [← hqe]
      simp [hqk]
    · left
      rw [← hqe]
      simpa [hqk] using hq
  · rw [if_neg hc] at hp
    rcases List.mem_append.mp hp with h | h
    · exact Or.inl h
    · right
      simpa using h

theorem bucketOk_mapGet {h : String} {buckets : TargetBuckets} (hok : BucketOk h buckets)
    (zoneId : String) :
    ∀ q ∈ (mapGet? buckets zoneId).getD [],
      q.1 = normalizeHostname q.2 ∧ q.1 ≠ normalizeHostname h := by
  intro q hq
  rcases hg : mapGet? buckets zoneId with _ | b
  · rw [hg] at hq
    simp at hq
  · rw [hg] at hq
    simp only [Option.getD_some] at hq
    unfold mapGet? at hg
    rcases hf : buckets.find? (fun e => e.1 == zoneId) with _ | p
    · rw [hf] at hg
      simp at hg
    · rw [hf] at hg
      simp at hg
      exact hok p (List.mem_of_find?_eq_some hf) q (hg ▸ hq)

theorem appendHostname_bucketOk {h : String} {buckets : TargetBuckets}
    (hok : BucketOk h buckets) (zoneId x : String)
    (hx : normalizeHostname x ≠ normalizeHostname h) :
    BucketOk h (appendHostname buckets zoneId x) := by
  intro p hp q hq
  simp only [appendHostname] at hp
  rcases mem_mapSet _ _ _ p hp with h1 | h1
  · exact hok p h1 q hq
  · subst h1
    by_cases hc : (((mapGet? buckets zoneId).getD []).any
        (fun e => e.1 == normalizeHostname x)) = true
    · rw [if_pos hc] at hq
      exact bucketOk_mapGet hok zoneId q hq
    · rw [if_neg hc] at hq
      rcases List.mem_append.mp hq with h2 | h2
      · exact bucketOk_mapGet hok zoneId q h2
      · simp only [List.mem_singleton] at h2
        subst h2
        exact ⟨rfl, hx⟩

theorem collectHostnames_fold_not_blacklisted (blacklist : List String) :
    ∀ (records : List CloudflareDnsRecord) (bucket : HostnameBucket),
      (∀ q ∈ bucket, isBlacklisted q.2 blacklist = false) →
      ∀ q ∈ records.foldl
        (fun (bucket : HostnameBucket) record =>
          if !(HOST_RECORD_TYPES.contains record.type) then bucket
          else if isBlacklisted record.name blacklist then bucket
          else
            let canonical := normalizeHostname record.name
            if bucket.any (fun e => e.1 == canonical) then bucket
            else bucket ++ [(canonical, record.name)])
        bucket,
      isBlacklisted q.2 blacklist = false
  | [], bucket, hinv, q, hq => hinv q hq
  | record :: rest, bucket, hinv, q, hq => by
      rw [List.foldl_cons] at hq
      by_cases ht : (!(HOST_RECORD_TYPES.contains record.type)) = true
      · rw [if_pos ht] at hq
        exact collectHostnames_fold_not_blacklisted blacklist rest bucket hinv q hq
      · rw [if_neg ht] at hq
        by_cases hb : isBlacklisted record.name blacklist = true
        · rw [if_pos hb] at hq
          exact collectHostnames_fold_not_blacklisted blacklist rest bucket hinv q hq
        · rw [if_neg hb] at hq
          simp only at hq
          by_cases hdup : (bucket.any
              (fun e => e.1 == normalizeHostname record.name)) = true
          · rw [if_pos hdup] at hq
            exact collectHostnames_fold_not_blacklisted blacklist rest bucket hinv q hq
          · rw [if_neg hdup] at hq
            refine collectHostnames_fold_not_blacklisted blacklist rest _ ?_ q hq
            intro q' hq'
            rcases List.mem_append.mp hq' with h2 | h2
            · exact hinv q' h2
            · simp only [List.mem_singleton] at h2
              subst h2
              exact eq_false_of_ne_true hb

theorem collectHostnames_not_blacklisted (blacklist : List String)
    (records : List CloudflareDnsRecord) :
    ∀ n ∈ collectHostnamesFromZoneRecords records blacklist,
      isBlacklisted n blacklist = false := by
  intro n hn
  simp only [collectHostnamesFromZoneRecords] at hn
  rcases List.mem_map.mp hn with ⟨q, hq, hqe⟩
  rw [← hqe]
  exact collectHostnames_fold_not_blacklisted blacklist records [] (by simp) q hq

theorem mem_mapOfEntries {β : Type} (entries : List (String × β)) :
    ∀ p ∈ mapOfEntries entries, p ∈ entries := by
  suffices hgen : ∀ (es acc : List (String × β)),
      ∀ p ∈ es.foldl (fun m e => mapSet m e.1 e.2) acc, p ∈ acc ∨ p ∈ es by
    intro p hp
    rcases hgen entries [] p hp with h1 | h1
    · simp at h1
    · exact h1
  intro es
  induction es with
  | nil =>
      intro acc p hp
      exact Or.inl hp
  | cons e rest ih =>
      intro acc p hp
      rw [List.foldl_cons] at hp
      rcases ih (mapSet acc e.1 e.2) p hp with h1 | h1
      · rcases mem_mapSet acc e.1 e.2 p h1 with h2 | h2
        · exact Or.inl h2
        · right
          rw [h2]
          simp
      · exact Or.inr (List.mem_cons_of_mem _ h1)

theorem addHostnameTargets_bucketOk (zones : List CloudflareZone)
    (blacklist : List String) (h : String)
    (hh : blacklist.contains (normalizeHostname h) = true) :
    ∀ (hs : List String) (buckets buckets' : TargetBuckets), BucketOk h buckets →
      addHostnameTargets zones blacklist buckets hs = .ok buckets' →
      BucketOk h buckets'
  | [], buckets, buckets', hok, heq => by
      simp only [addHostnameTargets, Except.ok.injEq] at heq
      exact heq ▸ hok
  | h0 :: rest, buckets, buckets', hok, heq => by
      by_cases hbl0 : isBlacklisted h0 blacklist = true
      · simp only [addHostnameTargets, hbl0, if_true] at heq
        exact addHostnameTargets_bucketOk zones blacklist h hh rest buckets buckets' hok heq
      · simp only [addHostnameTargets, eq_false_of_ne_true hbl0, Bool.false_eq_true,
          if_false] at heq
        rcases hf : findZoneForHostname h0 zones with _ | z
        · rw [hf] at heq
          cases heq
        · rw [hf] at heq
          have hx : normalizeHostname h0 ≠ normalizeHostname h := by
            intro hcontra
            apply hbl0
            unfold isBlacklisted
            rw [hcontra]
            exact hh
          exact addHostnameTargets_bucketOk zones blacklist h hh rest _ buckets'
            (appendHostname_bucketOk hok z.id h0 hx) heq

theorem foldl_appendHostname_bucketOk {h : String} (zoneId : String) :
    ∀ (names : List String) (buckets : TargetBuckets), BucketOk h buckets →
      (∀ n ∈ names, normalizeHostname n ≠ normalizeHostname h) →
      BucketOk h (names.foldl (fun b n => appendHostname b zoneId n) buckets)
  | [], buckets, hok, _ => hok
  | n :: rest, buckets, hok, hns => by
      rw [List.foldl_cons]
      exact foldl_appendHostname_bucketOk zoneId rest _
        (appendHostname_bucketOk hok zoneId n (hns n (by simp)))
        (fun n' hn' => hns n' (by simp [hn']))

theorem addZoneTargets_bucketOk (zonesByName : List (String × CloudflareZone))
    (blacklist : List String) (recordsOf : String → List CloudflareDnsRecord)
    (h : String) (hh : blacklist.contains (normalizeHostname h) = true)
    (hzb : ∀ p ∈ zonesByName, normalizeHostname p.2.name = p.1) :
    ∀ (zts : List String) (buckets buckets' : TargetBuckets),
      (∀ zn ∈ zts, normalizeHostname zn ≠ normalizeHostname h) →
      BucketOk h buckets →
      addZoneTargets zonesByName blacklist recordsOf buckets zts = .ok buckets' →
      BucketOk h buckets'
  | [], buckets, buckets', _, hok, heq => by
      simp only [addZoneTargets, Except.ok.injEq] at heq
      exact heq ▸ hok
  | zn :: rest, buckets, buckets', hzs, hok, heq => by
      rcases hg : mapGet? zonesByName (normalizeHostname zn) with _ | z
      · simp only [addZoneTargets, hg] at heq
        cases heq
      · simp only [addZoneTargets, hg] at heq
        have hzname : normalizeHostname z.name = normalizeHostname zn := by
          unfold mapGet? at hg
          rcases hf : zonesByName.find? (fun e => e.1 == normalizeHostname zn) with _ | p
          · rw [hf] at hg
            simp at hg
          · rw [hf] at hg
            simp at hg
            have h1 := hzb p (List.mem_of_find?_eq_some hf)
            have h2 : p.1 = normalizeHostname zn := by
              simpa using List.find?_some hf
            rw [← hg, h1, h2]
        have hzx : normalizeHostname z.name ≠ normalizeHostname h := by
          rw [hzname]
          exact hzs zn (by simp)
        have hnames : ∀ n ∈ collectHostnamesFromZoneRecords (recordsOf z.id) blacklist,
            normalizeHostname n ≠ normalizeHostname h := by
          intro n hn hcontra
          have hb := collectHostnames_not_blacklisted blacklist (recordsOf z.id) n hn
          unfold isBlacklisted at hb
          rw [hcontra, hh] at hb
          cases hb
        exact addZoneTargets_bucketOk zonesByName blacklist recordsOf h hh hzb rest _
          buckets' (fun zn' h' => hzs zn' (by simp [h']))
          (foldl_appendHostname_bucketOk z.id _ _
            (appendHostname_bucketOk hok z.id z.name hzx) hnames) heq

theorem bucketsToResults_bucketOk (zonesById : List (String × CloudflareZone))
    (h : String) :
    ∀ (buckets : TargetBuckets) (results : List ZoneHostTargets), BucketOk h buckets →
      bucketsToResults zonesById buckets = .ok results →
      ∀ t ∈ results, ∀ name ∈ t.hostnames,
        normalizeHostname name ≠ normalizeHostname h
  | [], results, _, heq => by
      simp only [bucketsToResults, Except.ok.injEq] at heq
      intro t ht
      rw [← heq] at ht
      simp at ht
  | (zoneId, bucket) :: rest, results, hok, heq => by
      rcases hg : mapGet? zonesById zoneId with _ | zone
      · simp only [bucketsToResults, hg] at heq
        cases heq
      · simp only [bucketsToResults, hg, bind, Except.bind] at heq
        rcases ht : bucketsToResults zonesById rest with e | tail
        · rw [ht] at heq
          cases heq
        · rw [ht] at heq
          simp only [Except.ok.injEq] at heq
          intro t htmem name hname
          rw [← heq] at htmem
          rcases List.mem_cons.mp htmem with h1 | h1
          · subst h1
            have hmem : name ∈ bucket.map (fun q => q.2) := by
              unfold jsSortStrings at hname
              exact (List.perm_insertionSort _ _).mem_iff.mp hname
            rcases List.mem_map.mp hmem with ⟨q, hq, hqe⟩
            have hinv := hok (zoneId, bucket) (by simp) q hq
            rw [← hqe, ← hinv.1]
            exact hinv.2
          · exact bucketsToResults_bucketOk zonesById h rest tail
              (fun p hp => hok p (by simp [hp])) ht t h1 name hname

/-- C4 (amended): a blacklisted hostname (case-insensitive exact match
after trimming) never appears in any zone's target set of a successful
`collectZoneTargets` — whether supplied in the explicit hostname list
or discovered from a configured zone's records — provided it is not
itself the apex name of a configured whole zone; the apex hostname of
a configured zone is added to that zone's target set without a
blacklist check. -/
theorem blacklisted_hostname_never_targeted (config : TargetsConfig)
    (zones : List CloudflareZone) (recordsOf : String → List CloudflareDnsRecord)
    (h : String) (results : List ZoneHostTargets)
    (hbl : isBlacklisted h (config.blacklist.map normalizeHostname) = true)
    (hapex : ∀ zn ∈ config.zoneTargets, normalizeHostname zn ≠ normalizeHostname h)
    (hok : collectZoneTargets config zones recordsOf = .ok results) :
    ∀ t ∈ results, ∀ name ∈ t.hostnames,
      normalizeHostname name ≠ normalizeHostname h := by
  by_cases hz : (zones.length == 0) = true
  · simp [collectZoneTargets, hz] at hok
  · rcases h1 : addHostnameTargets zones (config.blacklist.map normalizeHostname) []
        config.hostnameTargets with e | b1
    · simp [collectZoneTargets, hz, bind, Except.bind, h1] at hok
    · rcases h2 : addZoneTargets
          (mapOfEntries (zones.map (fun z => (normalizeHostname z.name, z))))
          (config.blacklist.map normalizeHostname) recordsOf b1 config.zoneTargets
        with e | b2
      · simp [collectZoneTargets, hz, bind, Except.bind, h1, h2] at hok
      · simp only [collectZoneTargets, hz, Bool.false_eq_true, if_false, bind,
          Except.bind, h1, h2] at hok
        have hh : ((config.blacklist.map normalizeHostname).contains
            (normalizeHostname h)) = true := hbl
        have hb1 := addHostnameTargets_bucketOk zones
          (config.blacklist.map normalizeHostname) h hh config.hostnameTargets [] b1
          (by intro p hp; simp at hp) h1
        have hzb : ∀ p ∈ mapOfEntries (zones.map (fun z => (normalizeHostname z.name, z))),
            normalizeHostname p.2.name = p.1 := by
          intro p hp
          rcases List.mem_map.mp (mem_mapOfEntries _ p hp) with ⟨z, hz', hze⟩
          rw [← hze]
        have hb2 := addZoneTargets_bucketOk _ _ recordsOf h hh hzb config.zoneTargets b1
          b2 hapex hb1 h2
        exact bucketsToResults_bucketOk _ h b2 results hb2 hok

/-- The claim that a blacklisted hostname never appears in any target
set, including as the apex of a configured whole zone, is refuted by
the code: the apex hostname of a configured zone is appended without a
blacklist check (`targets.ts:101`), so a blacklisted apex reaches the
target set. -/
theorem blacklisted_apex_reaches_target_set :
    isBlacklisted "blocked.example" (["blocked.example"].map normalizeHostname) = true ∧
    collectZoneTargets
      { hostnameTargets := [], zoneTargets := ["blocked.example"],
        blacklist := ["blocked.example"] }
      [{ id := "z9", name := "blocked.example" }] (fun _ => []) =
      .ok [{ zone := { id := "z9", name := "blocked.example" },
             hostnames := ["blocked.example"] }] ∧
    ∃ t ∈ ([{ zone := { id := "z9", name := "blocked.example" },
              hostnames := ["blocked.example"] }] : List ZoneHostTargets),
      ∃ name ∈ t.hostnames, normalizeHostname name = normalizeHostname "blocked.example" := by
  refine ⟨by decide, by decide, ?_⟩
  exact ⟨{ zone := { id := "z9", name := "blocked.example" },
           hostnames := ["blocked.example"] }, by simp, "blocked.example", by simp, rfl⟩

/-- Witness for the amended C4: with `blocked.example` blacklisted and
not an apex of the configured zone `site.example`, the discovered
hostname `www.site.example` (and every other target) does not
normalize to the blacklisted name. -/
theorem blacklisted_hostname_never_targeted_witness :
    normalizeHostname "www.site.example" ≠ normalizeHostname "blocked.example" :=
  blacklisted_hostname_never_targeted
    { hostnameTargets := ["blocked.example"], zoneTargets := ["site.example"],
      blacklist := ["blocked.example"] }
    [{ id := "z1", name := "site.example" }]
    (fun _ =>
      [{ id := 1, type := "A", name := "www.site.example", content := "192.0.2.1",
         proxied := false, ttl := 300 },
       { id := 2, type := "A", name := "blocked.example", content := "192.0.2.1",
         proxied := false, ttl := 300 }])
    "blocked.example"
    [{ zone := { id := "z1", name := "site.example" },
       hostnames := ["site.example", "www.site.example"] }]
    (by decide) (by decide) (by decide)
    { zone := { id := "z1", name := "site.example" },
      hostnames := ["site.example", "www.site.example"] }
    (by decide) "www.site.example" (by decide)

/-! ## Idempotence: state characterization of one reconciliation pass -/

theorem filter_filter_bool {α : Type} (p q : α → Bool) (l : List α) :
    (l.filter q).filter p = l.filter (fun a => q a && p a) := by
  induction l with
  | nil => rfl
  | cons a l ih =>
      by_cases hq : q a = true
      · by_cases hp : p a = true <;> simp [List.filter_cons, hq, hp, ih]
      · simp [List.filter_cons, hq, ih]

theorem byNameType_filter_comm (hostname T : String) (q : CloudflareDnsRecord → Bool)
    (rs : List CloudflareDnsRecord) :
    byNameType hostname T (rs.filter q) = (byNameType hostname T rs).filter q := by
  unfold byNameType
  rw [filter_filter_bool, filter_filter_bool]
  exact List.filter_congr (fun a _ => Bool.and_comm _ _)

theorem byNameType_append (hostname T : String) (l₁ l₂ : List CloudflareDnsRecord) :
    byNameType hostname T (l₁ ++ l₂) =
      byNameType hostname T l₁ ++ byNameType hostname T l₂ := by
  unfold byNameType
  simp

theorem mem_byNameType {hostname T : String} {rs : List CloudflareDnsRecord}
    {r : CloudflareDnsRecord} (h : r ∈ byNameType hostname T rs) :
    r ∈ rs ∧ r.name = hostname ∧ r.type = T := by
  unfold byNameType at h
  have h1 := List.mem_filter.mp h
  refine ⟨h1.1, ?_, ?_⟩
  · have := h1.2
    simp at this
    exact this.1
  · have := h1.2
    simp at this
    exact this.2

/-- Deleting exactly the records of one hostname+type bucket filters
that bucket's predicate out, provided ids are unique. -/
theorem filter_all_ne_eq (hostname T : String) (rs : List CloudflareDnsRecord)
    (hnd : (rs.map (fun r => r.id)).Nodup) :
    rs.filter (fun r => (byNameType hostname T rs).all (fun d => r.id != d.id)) =
      rs.filter (fun r => !(r.name == hostname && r.type == T)) := by
  apply List.filter_congr
  intro r hr
  by_cases hp : (r.name == hostname && r.type == T) = true
  · have hrD : r ∈ byNameType hostname T rs := List.mem_filter.mpr ⟨hr, hp⟩
    have hfalse : ((byNameType hostname T rs).all (fun d => r.id != d.id)) = false := by
      rw [List.all_eq_false]
      exact ⟨r, hrD, by simp⟩
    simp [hfalse, hp]
  · have hall : ((byNameType hostname T rs).all (fun d => r.id != d.id)) = true := by
      rw [List.all_eq_true]
      intro d hd
      obtain ⟨hdrs, hdn, hdt⟩ := mem_byNameType hd
      by_contra hne
      simp only [bne_iff_ne, ne_eq, Decidable.not_not] at hne
      have := List.inj_on_of_nodup_map hnd hr hdrs hne
      subst this
      exact hp (by simp [hdn, hdt])
    simp [hall, hp]

theorem deleteRecords_state (zoneId zoneName hostname : String) :
    ∀ (ds : List CloudflareDnsRecord) (st : ZoneState),
      (deleteRecords st zoneId zoneName hostname ds).2 =
        { nextId := st.nextId,
          records := st.records.filter (fun r => ds.all (fun d => r.id != d.id)) }
  | [], st => by
      simp [deleteRecords]
  | d :: ds, st => by
      simp only [deleteRecords]
      rw [deleteRecords_state zoneId zoneName hostname ds (deleteDnsRecord st d.id)]
      simp only [deleteDnsRecord]
      rw [filter_filter_bool]
      simp [List.all_cons]

theorem partition_buckets_eq (st : ZoneState) (hostname : String) :
    (partitionRecords (listDnsRecordsByName st hostname)).aRecords =
        byNameType hostname "A" st.records ∧
    (partitionRecords (listDnsRecordsByName st hostname)).aaaaRecords =
        byNameType hostname "AAAA" st.records ∧
    (partitionRecords (listDnsRecordsByName st hostname)).cnameRecords =
        byNameType hostname "CNAME" st.records := by
  unfold listDnsRecordsByName byNameType
  refine ⟨?_, ?_, ?_⟩ <;> (simp only [partitionRecords_eq]; rw [filter_filter_bool])

/-- Effect of the unconditional deletion of a whole bucket on the
provider state. -/
theorem delete_branch_effect (zoneId zoneName hostname T : String) (st : ZoneState)
    (hwf : WellFormedZone st) :
    WellFormedZone (deleteRecords st zoneId zoneName hostname
        (byNameType hostname T st.records)).2 ∧
    (deleteRecords st zoneId zoneName hostname
        (byNameType hostname T st.records)).2.nextId = st.nextId ∧
    byNameType hostname T (deleteRecords st zoneId zoneName hostname
        (byNameType hostname T st.records)).2.records = [] ∧
    (∀ T', T' ≠ T →
      byNameType hostname T' (deleteRecords st zoneId zoneName hostname
          (byNameType hostname T st.records)).2.records =
        byNameType hostname T' st.records) := by
  rw [deleteRecords_state zoneId zoneName hostname (byNameType hostname T st.records) st]
  rw [filter_all_ne_eq hostname T st.records hwf.2]
  refine ⟨?_, rfl, ?_, ?_⟩
  · constructor
    · intro i hi
      apply hwf.1
      rcases List.mem_map.mp hi with ⟨r, hr, hre⟩
      exact List.mem_map.mpr ⟨r, (List.mem_filter.mp hr).1, hre⟩
    · exact hwf.2.sublist ((List.filter_sublist _).map _)
  · rw [byNameType_filter_comm]
    apply List.filter_eq_nil_iff.mpr
    intro r hr
    obtain ⟨_, hn, ht⟩ := mem_byNameType hr
    simp [hn, ht]
  · intro T' hT'
    rw [byNameType_filter_comm]
    apply List.filter_eq_self.mpr
    intro r hr
    obtain ⟨_, hn, ht⟩ := mem_byNameType hr
    simp only [hn, ht, beq_self_eq_true, Bool.true_and, Bool.not_eq_true']
    exact beq_eq_false_iff_ne.mpr hT'

theorem shouldUpdate_mkRecord (i : Nat) (d : DnsRecordInput) :
    shouldUpdate (mkRecord i d) d = false := by
  simp [shouldUpdate, mkRecord]

theorem ensureRecord_nil_state (zoneId zoneName hostname : String) (d : DnsRecordInput)
    (st : ZoneState) :
    (ensureRecord st zoneId zoneName hostname d []).2.records =
        st.records ++ [mkRecord st.nextId d] ∧
    (ensureRecord st zoneId zoneName hostname d []).2.nextId = st.nextId + 1 :=
  ⟨rfl, rfl⟩

theorem ensureRecord_cons_state (zoneId zoneName hostname : String) (d : DnsRecordInput)
    (st : ZoneState) (p : CloudflareDnsRecord) (dups : List CloudflareDnsRecord) :
    (ensureRecord st zoneId zoneName hostname d (p :: dups)).2.records =
        (if shouldUpdate p d then
            st.records.map (fun r => if r.id == p.id then mkRecord p.id d else r)
          else st.records).filter (fun r => dups.all (fun d' => r.id != d'.id)) ∧
    (ensureRecord st zoneId zoneName hostname d (p :: dups)).2.nextId = st.nextId := by
  by_cases hu : shouldUpdate p d = true <;>
    simp [ensureRecord, hu, updateDnsRecord, deleteRecords_state]

/-- A bucket list headed by a record whose id avoids the duplicates'
ids reduces to that head under the duplicate-deletion filter. -/
theorem filter_dups_head (x : CloudflareDnsRecord) (dups : List CloudflareDnsRecord)
    (hx : ∀ d' ∈ dups, x.id ≠ d'.id) :
    (x :: dups).filter (fun r => dups.all (fun d' => r.id != d'.id)) = [x] := by
  rw [List.filter_cons]
  have hhead : (dups.all (fun d' => x.id != d'.id)) = true := by
    rw [List.all_eq_true]
    intro d' hd'
    exact bne_iff_ne.mpr (hx d' hd')
  rw [hhead]
  simp only [if_true]
  have htail : dups.filter (fun r => dups.all (fun d' => r.id != d'.id)) = [] := by
    apply List.filter_eq_nil_iff.mpr
    intro d' hd' hall
    rw [List.all_eq_true] at hall
    exact absurd rfl (bne_iff_ne.mp (hall d' hd'))
  rw [htail]

/-- Deleting duplicates of type `T` does not disturb the records of a
different type `T'`. -/
theorem filter_dups_other (hostname T T' : String) (rs dups : List CloudflareDnsRecord)
    (hT' : T' ≠ T) (hnd : (rs.map (fun r => r.id)).Nodup)
    (hdups : ∀ d' ∈ dups, d' ∈ rs ∧ d'.type = T) :
    (byNameType hostname T' rs).filter (fun r => dups.all (fun d' => r.id != d'.id)) =
      byNameType hostname T' rs := by
  apply List.filter_eq_self.mpr
  intro r hr
  obtain ⟨hrrs, _, hrt⟩ := mem_byNameType hr
  rw [List.all_eq_true]
  intro d' hd'
  apply bne_iff_ne.mpr
  intro heq
  have := List.inj_on_of_nodup_map hnd hrrs (hdups d' hd').1 heq
  subst this
  exact hT' (hrt.symm.trans (hdups r hd').2)

/-- Effect of `ensureRecord` applied to the full bucket of one
hostname+type on the provider state. -/
theorem ensure_branch_effect (zoneId zoneName hostname T : String) (st : ZoneState)
    (d : DnsRecordInput) (hdname : d.name = hostname) (hdtype : d.type = T)
    (hwf : WellFormedZone st) :
    WellFormedZone (ensureRecord st zoneId zoneName hostname d
        (byNameType hostname T st.records)).2 ∧
    (∃ rec, byNameType hostname T (ensureRecord st zoneId zoneName hostname d
        (byNameType hostname T st.records)).2.records = [rec] ∧ rec.type = T ∧
      shouldUpdate rec d = false) ∧
    (∀ T', T' ≠ T →
      byNameType hostname T' (ensureRecord st zoneId zoneName hostname d
          (byNameType hostname T st.records)).2.records =
        byNameType hostname T' st.records) := by
  rcases hB : byNameType hostname T st.records with _ | ⟨p, dups⟩
  · -- no existing record: one is created under a fresh id
    obtain ⟨hrec, hnext⟩ := ensureRecord_nil_state zoneId zoneName hostname d st
    have hfresh : st.nextId ∉ st.records.map (fun r => r.id) := by
      intro hmem
      exact absurd (hwf.1 _ hmem) (lt_irrefl _)
    refine ⟨⟨?_, ?_⟩, ⟨mkRecord st.nextId d, ?_, by simp [mkRecord, hdtype],
      shouldUpdate_mkRecord _ _⟩, ?_⟩
    · intro i hi
      rw [hrec] at hi
      rw [hnext]
      simp only [List.map_append, List.mem_append] at hi
      rcases hi with hi | hi
      · exact Nat.lt_trans (hwf.1 i hi) (Nat.lt_succ_self _)
      · simp only [List.map_cons, List.map_nil, List.mem_singleton] at hi
        subst hi
        exact Nat.lt_succ_self _
    · rw [hrec]
      simp only [List.map_append, List.map_cons, List.map_nil]
      rw [List.nodup_append]
      refine ⟨hwf.2, List.nodup_singleton _, ?_⟩
      intro i hi hj
      simp only [List.mem_singleton, mkRecord] at hj
      subst hj
      exact hfresh hi
    · rw [hrec, byNameType_append, hB]
      have hone : byNameType hostname T [mkRecord st.nextId d] = [mkRecord st.nextId d] := by
        unfold byNameType
        simp [mkRecord, hdname, hdtype]
      rw [hone]
      rfl
    · intro T' hT'
      rw [hrec, byNameType_append]
      have hnone : byNameType hostname T' [mkRecord st.nextId d] = [] := by
        apply List.filter_eq_nil_iff.mpr
        intro r hr
        simp only [List.mem_singleton] at hr
        subst hr
        simp [mkRecord, hdtype, Ne.symm hT']
      rw [hnone]
      simp
  · -- one or more existing records
    obtain ⟨hrec, hnext⟩ := ensureRecord_cons_state zoneId zoneName hostname d st p dups
    have hp : p ∈ byNameType hostname T st.records := by
      rw [hB]
      simp
    obtain ⟨hprs, hpname, hptype⟩ := mem_byNameType hp
    have hBnd : ((p :: dups).map (fun r => r.id)).Nodup := by
      rw [← hB]
      exact hwf.2.sublist ((List.filter_sublist _).map _)
    have hpdups : ∀ d' ∈ dups, p.id ≠ d'.id := by
      intro d' hd' heq
      rw [List.map_cons] at hBnd
      apply (List.nodup_cons.mp hBnd).1
      rw [heq]
      exact List.mem_map.mpr ⟨d', hd', rfl⟩
    have hdupsmem : ∀ d' ∈ dups, d' ∈ st.records ∧ d'.type = T := by
      intro d' hd'
      obtain ⟨h1, _, h3⟩ := mem_byNameType (show d' ∈ byNameType hostname T st.records by
        rw [hB]; simp [hd'])
      exact ⟨h1, h3⟩
    by_cases hu : shouldUpdate p d = true
    · rw [if_pos hu] at hrec
      have hids : (st.records.map (fun r => if r.id == p.id then mkRecord p.id d else r)).map
          (fun r => r.id) = st.records.map (fun r => r.id) := by
        rw [List.map_map]
        apply List.map_eq_map_iff.mpr
        intro r _
        by_cases hid : (r.id == p.id) = true
        · simp only [Function.comp_apply, hid, if_true, mkRecord]
          exact (eq_of_beq hid).symm
        · have hid2 : ¬ r.id = p.id := by simpa using hid
          simp [Function.comp_apply, hid, hid2]
      have hmapT : byNameType hostname T
          (st.records.map (fun r => if r.id == p.id then mkRecord p.id d else r)) =
          mkRecord p.id d :: dups := by
        unfold byNameType
        rw [List.filter_map]
        have hcongr : st.records.filter
            ((fun r => r.name == hostname && r.type == T) ∘
              (fun r => if r.id == p.id then mkRecord p.id d else r)) =
            st.records.filter (fun r => r.name == hostname && r.type == T) := by
          apply List.filter_congr
          intro r hr
          by_cases hid : (r.id == p.id) = true
          · have hrp : r = p := List.inj_on_of_nodup_map hwf.2 hr hprs (eq_of_beq hid)
            subst hrp
            simp [Function.comp_apply, hid, mkRecord, hdname, hdtype, hpname, hptype]
          · have hid2 : ¬ r.id = p.id := by simpa using hid
            simp [Function.comp_apply, hid, hid2]
        rw [hcongr]
        have hfil : st.records.filter (fun r => r.name == hostname && r.type == T) =
            p :: dups := hB
        rw [hfil]
        simp only [List.map_cons]
        have hup : (if p.id == p.id then mkRecord p.id d else p) = mkRecord p.id d := by
          simp
        rw [hup]
        congr 1
        have hmapid : dups.map (fun r => if r.id == p.id then mkRecord p.id d else r) =
            dups.map (fun r => r) := by
          apply List.map_eq_map_iff.mpr
          intro d' hd'
          have hne : (d'.id == p.id) = false := by
            apply beq_eq_false_iff_ne.mpr
            exact fun h => hpdups d' hd' h.symm
          simp [hne]
        rw [hmapid, List.map_id']
      have hmapT' : ∀ T', T' ≠ T → byNameType hostname T'
          (st.records.map (fun r => if r.id == p.id then mkRecord p.id d else r)) =
          byNameType hostname T' st.records := by
        intro T' hT'
        unfold byNameType
        rw [List.filter_map]
        have hcongr : st.records.filter
            ((fun r => r.name == hostname && r.type == T') ∘
              (fun r => if r.id == p.id then mkRecord p.id d else r)) =
            st.records.filter (fun r => r.name == hostname && r.type == T') := by
          apply List.filter_congr
          intro r hr
          by_cases hid : (r.id == p.id) = true
          · have hrp : r = p := List.inj_on_of_nodup_map hwf.2 hr hprs (eq_of_beq hid)
            subst hrp
            simp [Function.comp_apply, hid, mkRecord, hdname, hdtype, hpname, hptype,
              Ne.symm hT']
          · have hid2 : ¬ r.id = p.id := by simpa using hid
            simp [Function.comp_apply, hid, hid2]
        rw [hcongr]
        have hmapid : (st.records.filter (fun r => r.name == hostname && r.type == T')).map
            (fun r => if r.id == p.id then mkRecord p.id d else r) =
            (st.records.filter (fun r => r.name == hostname && r.type == T')).map
              (fun r => r) := by
          apply List.map_eq_map_iff.mpr
          intro r hr
          obtain ⟨hrrs, _, hrt⟩ := mem_byNameType
            (show r ∈ byNameType hostname T' st.records from hr)
          have hne : (r.id == p.id) = false := by
            apply beq_eq_false_iff_ne.mpr
            intro heq
            have hrp := List.inj_on_of_nodup_map hwf.2 hrrs hprs heq
            subst hrp
            exact hT' (hrt.symm.trans hptype)
          simp [hne]
        rw [hmapid, List.map_id']
      refine ⟨⟨?_, ?_⟩, ⟨mkRecord p.id d, ?_, by simp [mkRecord, hdtype],
        shouldUpdate_mkRecord _ _⟩, ?_⟩
      · intro i hi
        rw [hrec] at hi
        rw [hnext]
        apply hwf.1
        rw [← hids]
        rcases List.mem_map.mp hi with ⟨r, hr, hre⟩
        exact List.mem_map.mpr ⟨r, (List.mem_filter.mp hr).1, hre⟩
      · rw [hrec]
        have hnd2 : ((st.records.map
            (fun r => if r.id == p.id then mkRecord p.id d else r)).map
            (fun r => r.id)).Nodup := by
          rw [hids]
          exact hwf.2
        exact hnd2.sublist ((List.filter_sublist _).map _)
      · rw [hrec, byNameType_filter_comm, hmapT]
        apply filter_dups_head
        intro d' hd'
        simp only [mkRecord]
        exact hpdups d' hd'
      · intro T' hT'
        rw [hrec, byNameType_filter_comm, hmapT' T' hT']
        exact filter_dups_other hostname T T' st.records dups hT' hwf.2 hdupsmem
    · rw [if_neg hu] at hrec
      refine ⟨⟨?_, ?_⟩, ⟨p, ?_, hptype, eq_false_of_ne_true hu⟩, ?_⟩
      · intro i hi
        rw [hrec] at hi
        rw [hnext]
        apply hwf.1
        rcases List.mem_map.mp hi with ⟨r, hr, hre⟩
        exact List.mem_map.mpr ⟨r, (List.mem_filter.mp hr).1, hre⟩
      · rw [hrec]
        exact hwf.2.sublist ((List.filter_sublist _).map _)
      · rw [hrec, byNameType_filter_comm, hB]
        exact filter_dups_head _ _ hpdups
      · intro T' hT'
        rw [hrec, byNameType_filter_comm]
        exact filter_dups_other hostname T T' st.records dups hT' hwf.2 hdupsmem

/-- Effect of the guarded CNAME cleanup step on the provider state. -/
theorem cname_guard_effect (zoneId zoneName hostname : String) (st : ZoneState)
    (hwf : WellFormedZone st) :
    WellFormedZone (if (byNameType hostname "CNAME" st.records).length > 0
        then deleteRecords st zoneId zoneName hostname
          (byNameType hostname "CNAME" st.records)
        else ([], st)).2 ∧
    byNameType hostname "CNAME" (if (byNameType hostname "CNAME" st.records).length > 0
        then deleteRecords st zoneId zoneName hostname
          (byNameType hostname "CNAME" st.records)
        else ([], st)).2.records = [] ∧
    (∀ T', T' ≠ "CNAME" →
      byNameType hostname T' (if (byNameType hostname "CNAME" st.records).length > 0
          then deleteRecords st zoneId zoneName hostname
            (byNameType hostname "CNAME" st.records)
          else ([], st)).2.records = byNameType hostname T' st.records) := by
  by_cases hc : (byNameType hostname "CNAME" st.records).length > 0
  · rw [if_pos hc]
    obtain ⟨h1, _, h3, h4⟩ := delete_branch_effect zoneId zoneName hostname "CNAME" st hwf
    exact ⟨h1, h3, h4⟩
  · rw [if_neg hc]
    have hnil : byNameType hostname "CNAME" st.records = [] := by
      rcases hB : byNameType hostname "CNAME" st.records with _ | ⟨x, xs⟩
      · rfl
      · exact absurd (by rw [hB]; simp) hc
    exact ⟨hwf, hnil, fun T' _ => rfl⟩

/-- State characterization of one successful `reconcileHostname` pass:
no CNAME records remain for the hostname, a managed family converges
to exactly one A/AAAA record that matches the desired content, and a
disabled family's records are gone. -/
theorem reconcile_state_char (config : ReconcileConfig) (st : ZoneState)
    (zoneId zoneName hostname : String) (ips : ResolvedIpAddresses)
    (res : List RecordChange × ZoneState) (hwf : WellFormedZone st)
    (h : reconcileHostname config st zoneId zoneName hostname ips = .ok res) :
    byNameType hostname "CNAME" res.2.records = [] ∧
    (config.includeIPv4 = true →
      ∃ ip rec, ips.ipv4 = some ip ∧
        byNameType hostname "A" res.2.records = [rec] ∧ rec.type = "A" ∧
        shouldUpdate rec
          { type := "A", name := hostname, content := ip,
            proxied := config.proxied, ttl := AUTO_TTL } = false) ∧
    (config.includeIPv4 = false → byNameType hostname "A" res.2.records = []) ∧
    (config.includeIPv6 = true →
      ∃ ip rec, ips.ipv6 = some ip ∧
        byNameType hostname "AAAA" res.2.records = [rec] ∧ rec.type = "AAAA" ∧
        shouldUpdate rec
          { type := "AAAA", name := hostname, content := ip,
            proxied := config.proxied, ttl := AUTO_TTL } = false) ∧
    (config.includeIPv6 = false → byNameType hostname "AAAA" res.2.records = []) := by
  simp only [reconcileHostname, bind, Except.bind, pure, Except.pure] at h
  obtain ⟨hpa, hpaaaa, hpcn⟩ := partition_buckets_eq st hostname
  rw [hpa, hpaaaa, hpcn] at h
  obtain ⟨hwf1, hcn1, hoth1⟩ := cname_guard_effect zoneId zoneName hostname st hwf
  set st1 := (if (byNameType hostname "CNAME" st.records).length > 0
      then deleteRecords st zoneId zoneName hostname
        (byNameType hostname "CNAME" st.records)
      else ([], st)).2 with hst1def
  have heqA1 : byNameType hostname "A" st1.records = byNameType hostname "A" st.records :=
    hoth1 "A" (by decide)
  have heqB1 : byNameType hostname "AAAA" st1.records =
      byNameType hostname "AAAA" st.records := hoth1 "AAAA" (by decide)
  by_cases h4 : config.includeIPv4 = true
  · rcases hip : ips.ipv4 with _ | ip
    · simp [h4, hip] at h
    · simp only [h4, hip, if_true] at h
      rw [← heqA1] at h
      obtain ⟨hwf2, hA2, hoth2⟩ := ensure_branch_effect zoneId zoneName hostname "A" st1
        { type := "A", name := hostname, content := ip,
          proxied := config.proxied, ttl := AUTO_TTL } rfl rfl hwf1
      set st2 := (ensureRecord st1 zoneId zoneName hostname
          { type := "A", name := hostname, content := ip,
            proxied := config.proxied, ttl := AUTO_TTL }
          (byNameType hostname "A" st1.records)).2 with hst2def
      have hcn2 : byNameType hostname "CNAME" st2.records = [] := by
        rw [hoth2 "CNAME" (by decide)]
        exact hcn1
      have heqB2 : byNameType hostname "AAAA" st2.records =
          byNameType hostname "AAAA" st.records := by
        rw [hoth2 "AAAA" (by decide)]
        exact heqB1
      by_cases h6 : config.includeIPv6 = true
      · rcases hip6 : ips.ipv6 with _ | ip6
        · simp [h6, hip6] at h
        · simp only [h6, hip6, if_true] at h
          rw [Except.ok.injEq] at h
          have hst : res.2 = (ensureRecord st2 zoneId zoneName hostname
              { type := "AAAA", name := hostname, content := ip6,
                proxied := config.proxied, ttl := AUTO_TTL }
              (byNameType hostname "AAAA" st.records)).2 := by
            rw [← h]
          rw [← heqB2] at hst
          obtain ⟨_, hB3, hoth3⟩ := ensure_branch_effect zoneId zoneName hostname "AAAA"
            st2
            { type := "AAAA", name := hostname, content := ip6,
              proxied := config.proxied, ttl := AUTO_TTL } rfl rfl hwf2
          refine ⟨?_, ?_, ?_, ?_, ?_⟩
          · rw [hst, hoth3 "CNAME" (by decide)]
            exact hcn2
          · intro _
            obtain ⟨rec, hr1, hr2, hr3⟩ := hA2
            exact ⟨ip, rec, rfl, by rw [hst, hoth3 "A" (by decide)]; exact hr1, hr2, hr3⟩
          · intro habs
            rw [h4] at habs
            cases habs
          · intro _
            obtain ⟨rec, hr1, hr2, hr3⟩ := hB3
            exact ⟨ip6, rec, rfl, by rw [hst]; exact hr1, hr2, hr3⟩
          · intro habs
            rw [h6] at habs
            cases habs
      · simp only [eq_false_of_ne_true h6, Bool.false_eq_true, if_false] at h
        by_cases hlen6 : (byNameType hostname "AAAA" st.records).length > 0
        · simp only [hlen6, if_true] at h
          rw [Except.ok.injEq] at h
          have hst : res.2 = (deleteRecords st2 zoneId zoneName hostname
              (byNameType hostname "AAAA" st.records)).2 := by
            rw [← h]
          rw [← heqB2] at hst
          obtain ⟨_, _, hB3, hoth3⟩ := delete_branch_effect zoneId zoneName hostname
            "AAAA" st2 hwf2
          refine ⟨?_, ?_, ?_, ?_, ?_⟩
          · rw [hst, hoth3 "CNAME" (by decide)]
            exact hcn2
          · intro _
            obtain ⟨rec, hr1, hr2, hr3⟩ := hA2
            exact ⟨ip, rec, rfl, by rw [hst, hoth3 "A" (by decide)]; exact hr1, hr2, hr3⟩
          · intro habs
            rw [h4] at habs
            cases habs
          · intro habs
            rw [eq_false_of_ne_true h6] at habs
            cases habs
          · intro _
            rw [hst]
            exact hB3
        · simp only [hlen6, if_false] at h
          rw [Except.ok.injEq] at h
          have hst : res.2 = st2 := by
            rw [← h]
          have hB3 : byNameType hostname "AAAA" st.records = [] := by
            rcases hB : byNameType hostname "AAAA" st.records with _ | ⟨x, xs⟩
            · rfl
            · exact absurd (by rw [hB]; simp) hlen6
          refine ⟨?_, ?_, ?_, ?_, ?_⟩
          · rw [hst]
            exact hcn2
          · intro _
            obtain ⟨rec, hr1, hr2, hr3⟩ := hA2
            exact ⟨ip, rec, rfl, by rw [hst]; exact hr1, hr2, hr3⟩
          · intro habs
            rw [h4] at habs
            cases habs
          · intro habs
            rw [eq_false_of_ne_true h6] at habs
            cases habs
          · intro _
            rw [hst, heqB2]
            exact hB3
  · simp only [eq_false_of_ne_true h4, Bool.false_eq_true, if_false] at h
    by_cases hlen4 : (byNameType hostname "A" st.records).length > 0
    · simp only [hlen4, if_true] at h
      rw [← heqA1] at h
      obtain ⟨hwf2, _, hA2, hoth2⟩ := delete_branch_effect zoneId zoneName hostname "A"
        st1 hwf1
      set stA := (deleteRecords st1 zoneId zoneName hostname
          (byNameType hostname "A" st1.records)).2 with hstAdef
      have hcn2 : byNameType hostname "CNAME" stA.records = [] := by
        rw [hoth2 "CNAME" (by decide)]
        exact hcn1
      have heqB2 : byNameType hostname "AAAA" stA.records =
          byNameType hostname "AAAA" st.records := by
        rw [hoth2 "AAAA" (by decide)]
        exact heqB1
      by_cases h6 : config.includeIPv6 = true
      · rcases hip6 : ips.ipv6 with _ | ip6
        · simp [h6, hip6] at h
        · simp only [h6, hip6, if_true] at h
          rw [Except.ok.injEq] at h
          have hst : res.2 = (ensureRecord stA zoneId zoneName hostname
              { type := "AAAA", name := hostname, content := ip6,
                proxied := config.proxied, ttl := AUTO_TTL }
              (byNameType hostname "AAAA" st.records)).2 := by
            rw [← h]
          rw [← heqB2] at hst
          obtain ⟨_, hB3, hoth3⟩ := ensure_branch_effect zoneId zoneName hostname "AAAA"
            stA
            { type := "AAAA", name := hostname, content := ip6,
              proxied := config.proxied, ttl := AUTO_TTL } rfl rfl hwf2
          refine ⟨?_, ?_, ?_, ?_, ?_⟩
          · rw [hst, hoth3 "CNAME" (by decide)]
            exact hcn2
          · intro habs
            rw [eq_false_of_ne_true h4] at habs
            cases habs
          · intro _
            rw [hst, hoth3 "A" (by decide)]
            exact hA2
          · intro _
            obtain ⟨rec, hr1, hr2, hr3⟩ := hB3
            exact ⟨ip6, rec, rfl, by rw [hst]; exact hr1, hr2, hr3⟩
          · intro habs
            rw [h6] at habs
            cases habs
      · simp only [eq_false_of_ne_true h6, Bool.false_eq_true, if_false] at h
        by_cases hlen6 : (byNameType hostname "AAAA" st.records).length > 0
        · simp only [hlen6, if_true] at h
          rw [Except.ok.injEq] at h
          have hst : res.2 = (deleteRecords stA zoneId zoneName hostname
              (byNameType hostname "AAAA" st.records)).2 := by
            rw [← h]
          rw [← heqB2] at hst
          obtain ⟨_, _, hB3, hoth3⟩ := delete_branch_effect zoneId zoneName hostname
            "AAAA" stA hwf2
          refine ⟨?_, ?_, ?_, ?_, ?_⟩
          · rw [hst, hoth3 "CNAME" (by decide)]
            exact hcn2
          · intro habs
            rw [eq_false_of_ne_true h4] at habs
            cases habs
          · intro _
            rw [hst, hoth3 "A" (by decide)]
            exact hA2
          · intro habs
            exact absurd habs h6
          · intro _
            rw [hst]
            exact hB3
        · simp only [hlen6, if_false] at h
          rw [Except.ok.injEq] at h
          have hst : res.2 = stA := by
            rw [← h]
          have hB3 : byNameType hostname "AAAA" st.records = [] := by
            rcases hB : byNameType hostname "AAAA" st.records with _ | ⟨x, xs⟩
            · rfl
            · exact absurd (by rw [hB]; simp) hlen6
          refine ⟨?_, ?_, ?_, ?_, ?_⟩
          · rw [hst]
            exact hcn2
          · intro habs
            rw [eq_false_of_ne_true h4] at habs
            cases habs
          · intro _
            rw [hst]
            exact hA2
          · intro habs
            exact absurd habs h6
          · intro _
            rw [hst, heqB2]
            exact hB3
    · simp only [hlen4, if_false] at h
      have hA2 : byNameType hostname "A" st1.records = [] := by
        rw [heqA1]
        rcases hB : byNameType hostname "A" st.records with _ | ⟨x, xs⟩
        · rfl
        · exact absurd (by rw [hB]; simp) hlen4
      have hwf2 := hwf1
      have hcn2 := hcn1
      have heqB2 := heqB1
      by_cases h6 : config.includeIPv6 = true
      · rcases hip6 : ips.ipv6 with _ | ip6
        · simp [h6, hip6] at h
        · simp only [h6, hip6, if_true] at h
          rw [Except.ok.injEq] at h
          have hst : res.2 = (ensureRecord st1 zoneId zoneName hostname
              { type := "AAAA", name := hostname, content := ip6,
                proxied := config.proxied, ttl := AUTO_TTL }
              (byNameType hostname "AAAA" st.records)).2 := by
            rw [← h]
          rw [← heqB2] at hst
          obtain ⟨_, hB3, hoth3⟩ := ensure_branch_effect zoneId zoneName hostname "AAAA"
            st1
            { type := "AAAA", name := hostname, content := ip6,
              proxied := config.proxied, ttl := AUTO_TTL } rfl rfl hwf2
          refine ⟨?_, ?_, ?_, ?_, ?_⟩
          · rw [hst, hoth3 "CNAME" (by decide)]
            exact hcn2
          · intro habs
            rw [eq_false_of_ne_true h4] at habs
            cases habs
          · intro _
            rw [hst, hoth3 "A" (by decide)]
            exact hA2
          · intro _
            obtain ⟨rec, hr1, hr2, hr3⟩ := hB3
            exact ⟨ip6, rec, rfl, by rw [hst]; exact hr1, hr2, hr3⟩
          · intro habs
            rw [h6] at habs
            cases habs
      · simp only [eq_false_of_ne_true h6, Bool.false_eq_true, if_false] at h
        by_cases hlen6 : (byNameType hostname "AAAA" st.records).length > 0
        · simp only [hlen6, if_true] at h
          rw [Except.ok.injEq] at h
          have hst : res.2 = (deleteRecords st1 zoneId zoneName hostname
              (byNameType hostname "AAAA" st.records)).2 := by
            rw [← h]
          rw [← heqB2] at hst
          obtain ⟨_, _, hB3, hoth3⟩ := delete_branch_effect zoneId zoneName hostname
            "AAAA" st1 hwf2
          refine ⟨?_, ?_, ?_, ?_, ?_⟩
          · rw [hst, hoth3 "CNAME" (by decide)]
            exact hcn2
          · intro habs
            rw [eq_false_of_ne_true h4] at habs
            cases habs
          · intro _
            rw [hst, hoth3 "A" (by decide)]
            exact hA2
          · intro habs
            exact absurd habs h6
          · intro _
            rw [hst]
            exact hB3
        · simp only [hlen6, if_false] at h
          rw [Except.ok.injEq] at h
          have hst : res.2 = st1 := by
            rw [← h]
          have hB3 : byNameType hostname "AAAA" st.records = [] := by
            rcases hB : byNameType hostname "AAAA" st.records with _ | ⟨x, xs⟩
            · rfl
            · exact absurd (by rw [hB]; simp) hlen6
          refine ⟨?_, ?_, ?_, ?_, ?_⟩
          · rw [hst]
            exact hcn2
          · intro habs
            rw [eq_false_of_ne_true h4] at habs
            cases habs
          · intro _
            rw [hst]
            exact hA2
          · intro habs
            exact absurd habs h6
          · intro _
            rw [hst, heqB2]
            exact hB3

/-- C9: idempotence — after one successful `reconcileHostname` pass
from a well-formed provider state, a second pass with the same
configuration and resolved addresses (and no external interference)
emits exactly one `skip` change with reason `"unchanged"` per managed
record type and nothing else (no `create`, `update` or `delete`), and
leaves the provider state untouched. -/
theorem reconcile_idempotent_second_pass_skips (config : ReconcileConfig)
    (st : ZoneState) (zoneId zoneName hostname : String) (ips : ResolvedIpAddresses)
    (ch1 : List RecordChange) (st1 : ZoneState) (hwf : WellFormedZone st)
    (h1 : reconcileHostname config st zoneId zoneName hostname ips = .ok (ch1, st1)) :
    reconcileHostname config st1 zoneId zoneName hostname ips =
      .ok ((if config.includeIPv4 then
              [{ kind := RecordChangeKind.skip, recordType := "A", hostname := hostname,
                 zoneId := zoneId, zoneName := zoneName, reason := some "unchanged" }]
            else []) ++
           (if config.includeIPv6 then
              [{ kind := RecordChangeKind.skip, recordType := "AAAA", hostname := hostname,
                 zoneId := zoneId, zoneName := zoneName, reason := some "unchanged" }]
            else []), st1) := by
  obtain ⟨hcn0, h4t, h4f, h6t, h6f⟩ :=
    reconcile_state_char config st zoneId zoneName hostname ips (ch1, st1) hwf h1
  have hcn : byNameType hostname "CNAME" st1.records = [] := hcn0
  obtain ⟨hpa, hpaaaa, hpcn⟩ := partition_buckets_eq st1 hostname
  simp only [reconcileHostname, bind, Except.bind, pure, Except.pure]
  rw [hpa, hpaaaa, hpcn, hcn]
  by_cases h4 : config.includeIPv4 = true
  · obtain ⟨ip, rec, hipv4, hA0, htype, hupd⟩ := h4t h4
    have hA : byNameType hostname "A" st1.records = [rec] := hA0
    rw [hA]
    by_cases h6 : config.includeIPv6 = true
    · obtain ⟨ip6, rec6, hipv6, hB0, htype6, hupd6⟩ := h6t h6
      have hB : byNameType hostname "AAAA" st1.records = [rec6] := hB0
      rw [hB]
      simp [h4, h6, hipv4, hipv6, ensureRecord, hupd, hupd6, deleteRecords, htype, htype6]
    · have hBe : byNameType hostname "AAAA" st1.records = [] :=
        h6f (eq_false_of_ne_true h6)
      rw [hBe]
      simp [h4, eq_false_of_ne_true h6, hipv4, ensureRecord, hupd, deleteRecords, htype]
  · have hAe : byNameType hostname "A" st1.records = [] := h4f (eq_false_of_ne_true h4)
    rw [hAe]
    by_cases h6 : config.includeIPv6 = true
    · obtain ⟨ip6, rec6, hipv6, hB0, htype6, hupd6⟩ := h6t h6
      have hB : byNameType hostname "AAAA" st1.records = [rec6] := hB0
      rw [hB]
      simp [eq_false_of_ne_true h4, h6, hipv6, ensureRecord, hupd6, deleteRecords, htype6]
    · have hBe : byNameType hostname "AAAA" st1.records = [] :=
        h6f (eq_false_of_ne_true h6)
      rw [hBe]
      simp [eq_false_of_ne_true h4, eq_false_of_ne_true h6]

/-- Witness for C9: an empty zone converges in one pass (two creates);
the second pass skips both record types and changes nothing. -/
theorem reconcile_idempotent_second_pass_skips_witness :
    reconcileHostname { includeIPv4 := true, includeIPv6 := true, proxied := true }
      { nextId := 2,
        records := [{ id := 0, type := "A", name := "home.example.com",
                      content := "203.0.113.5", proxied := true, ttl := 1 },
                    { id := 1, type := "AAAA", name := "home.example.com",
                      content := "2001:db8::1", proxied := true, ttl := 1 }] }
      "z1" "example.com" "home.example.com"
      { ipv4 := some "203.0.113.5", ipv6 := some "2001:db8::1" } =
      .ok ([{ kind := RecordChangeKind.skip, recordType := "A",
              hostname := "home.example.com", zoneId := "z1", zoneName := "example.com",
              reason := some "unchanged" },
            { kind := RecordChangeKind.skip, recordType := "AAAA",
              hostname := "home.example.com", zoneId := "z1", zoneName := "example.com",
              reason := some "unchanged" }],
           { nextId := 2,
             records := [{ id := 0, type := "A", name := "home.example.com",
                           content := "203.0.113.5", proxied := true, ttl := 1 },
                         { id := 1, type := "AAAA", name := "home.example.com",
                           content := "2001:db8::1", proxied := true, ttl := 1 }] }) :=
  reconcile_idempotent_second_pass_skips
    { includeIPv4 := true, includeIPv6 := true, proxied := true }
    { nextId := 0, records := [] } "z1" "example.com" "home.example.com"
    { ipv4 := some "203.0.113.5", ipv6 := some "2001:db8::1" }
    [{ kind := RecordChangeKind.create, recordType := "A",
       hostname := "home.example.com", zoneId := "z1", zoneName := "example.com" },
     { kind := RecordChangeKind.create, recordType := "AAAA",
       hostname := "home.example.com", zoneId := "z1", zoneName := "example.com" }]
    { nextId := 2,
      records := [{ id := 0, type := "A", name := "home.example.com",
                    content := "203.0.113.5", proxied := true, ttl := 1 },
                  { id := 1, type := "AAAA", name := "home.example.com",
                    content := "2001:db8::1", proxied := true, ttl := 1 }] }
    (by constructor <;> decide) (by decide)

end CloudflareDdns
